import Mathlib

/-!
# Meeting-reminder dispatch subsystem: verified shallow embedding

This file embeds the reminder dispatch subsystem of the meeting-management
application: the reminder selector and dispatch loop of
`src/backend/src/jobs/reminderJob.ts` (`processReminders`), the notification
service of `src/backend/src/services/notification.service.ts`
(`NotificationService.create`, `createMeetingReminder`,
`sendExternalNotifications`), and the reminder lifecycle operations of the
meeting service (`MeetingService.createReminders`, `update`, `cancel`).

Modelling choices:
* Times are `Int` milliseconds since the epoch (`Date.getTime()`).
* Database tables are lists of records; Prisma `findUnique` / `findMany`
  become list lookups and filters; `take: 100` becomes `List.take 100`.
* Outbound channel calls (email transport, push provider) and the in-app
  notification write are instrumented with an `Event` trace.  Whether a call
  throws is driven by a `Fault` oracle, so that the error-handling paths
  (`try`/`catch` in the job and in `sendExternalNotifications`) are explicit:
  a JavaScript `throw` is an `Except.error` carrying the state at the throw
  point (side effects already performed persist, as in the real store).
-/

namespace MeetingApp

/-- `NotificationType` enum of the Prisma schema (the values used by the
notification service). -/
inductive NotificationType where
  | MEETING_INVITATION
  | MEETING_UPDATED
  | MEETING_CANCELLED
  | MEETING_REMINDER
  | PARTICIPANT_RESPONDED
  deriving DecidableEq, Repr

/-- A `MeetingParticipant` row: the e-mail identity and the optional linked
user account (`userId` is nullable in the schema). -/
structure Participant where
  email : String
  userId : Option Nat
  deriving DecidableEq, Repr

/-- A `User` row (the fields the dispatch code reads). -/
structure User where
  id : Nat
  email : String
  name : String
  deriving DecidableEq, Repr

/-- A `Meeting` row with its eagerly loaded participants
(the fields the reminder subsystem reads). -/
structure Meeting where
  id : Nat
  title : String
  isCancelled : Bool
  startTime : Int
  endTime : Int
  createdByUserId : Nat
  participants : List Participant
  deriving DecidableEq, Repr

/-- A `MeetingReminder` row. -/
structure Reminder where
  id : Nat
  meetingId : Nat
  minutesBefore : Nat
  scheduledFor : Int
  sentAt : Option Int
  emailSent : Bool
  pushSent : Bool
  inAppCreated : Bool
  deriving DecidableEq, Repr

/-- A `UserSettings` row: the three per-channel toggles. -/
structure UserSettings where
  userId : Nat
  emailNotificationsEnabled : Bool
  pushNotificationsEnabled : Bool
  inAppNotificationsEnabled : Bool
  deriving DecidableEq, Repr

/-- A `Notification` row (in-app notification). -/
structure Notification where
  userId : Nat
  ntype : NotificationType
  title : String
  message : String
  isRead : Bool
  relatedMeetingId : Option Nat
  deriving DecidableEq, Repr

/-- The persistent store: the tables the reminder subsystem touches. -/
structure DB where
  users : List User
  meetings : List Meeting
  reminders : List Reminder
  settings : List UserSettings
  notifications : List Notification
  deriving DecidableEq, Repr

/-- Fault oracle: which outbound calls throw, keyed by the recipient user id.
`inAppThrows` models `prisma.notification.create` rejecting, `emailThrows`
the SMTP transport rejecting, `pushThrows` the push provider rejecting. -/
structure Fault where
  inAppThrows : Nat → Bool
  emailThrows : Nat → Bool
  pushThrows : Nat → Bool

/-- Call site of a channel invocation: directly from the dispatch loop in
`reminderJob.ts`, or from `NotificationService.sendExternalNotifications`. -/
inductive Src where
  | loop
  | svc
  deriving DecidableEq, Repr

/-- Trace events: channel invocations, caught channel errors, and the
per-reminder processing markers of the dispatch loop. -/
inductive Event where
  | emailCall (src : Src) (userId : Nat)
  | pushCall (src : Src) (userId : Nat)
  | emailError (userId : Nat)
  | pushError (userId : Nat)
  | reminderStart (rid : Nat)
  | reminderError (rid : Nat)
  deriving DecidableEq, Repr

/-- `prisma.user.findUnique({ where: { id } })`. -/
def findUser (db : DB) (uid : Nat) : Option User :=
  db.users.find? (fun u => u.id == uid)

/-- `prisma.meeting.findUnique({ where: { id } })` / the eager-loaded
`reminder.meeting` relation. -/
def findMeeting (db : DB) (mid : Nat) : Option Meeting :=
  db.meetings.find? (fun m => m.id == mid)

/-- `prisma.userSettings.findUnique({ where: { userId } })`. -/
def findSettings (db : DB) (uid : Nat) : Option UserSettings :=
  db.settings.find? (fun s => s.userId == uid)

/-- Look up a reminder row by id. -/
def findReminderRow (db : DB) (rid : Nat) : Option Reminder :=
  db.reminders.find? (fun r => r.id == rid)

/-- `!settings || settings.inAppNotificationsEnabled`: absent settings mean
the channel is enabled (fail-open default). -/
def inAppAllowed : Option UserSettings → Bool
  | none => true
  | some s => s.inAppNotificationsEnabled

/-- `!settings || settings.emailNotificationsEnabled`, equivalently
`settings?.emailNotificationsEnabled !== false`. -/
def emailAllowed : Option UserSettings → Bool
  | none => true
  | some s => s.emailNotificationsEnabled

/-- `!settings || settings.pushNotificationsEnabled`, equivalently
`settings?.pushNotificationsEnabled !== false`. -/
def pushAllowed : Option UserSettings → Bool
  | none => true
  | some s => s.pushNotificationsEnabled

/-! ## Reminder selector (`processReminders`, selection query)

`prisma.meetingReminder.findMany` with
`scheduledFor <= now + 60*1000`, `sentAt: null`,
`meeting: { isCancelled: false, startTime: { gt: now } }`, `take: 100`. -/

/-- The one-minute look-ahead window, in milliseconds (`60 * 1000`). -/
def lookAheadMs : Int := 60 * 1000

/-- The batch cap (`take: 100`). -/
def batchSize : Nat := 100

/-- The `where` predicate of the selection query. -/
def reminderDue (db : DB) (now : Int) (r : Reminder) : Bool :=
  decide (r.scheduledFor ≤ now + lookAheadMs) && r.sentAt == none &&
    (match findMeeting db r.meetingId with
     | some m => !m.isCancelled && decide (now < m.startTime)
     | none => false)

/-- The selection query: all due reminders, capped at `batchSize`. -/
def selectReminders (db : DB) (now : Int) : List Reminder :=
  (db.reminders.filter (reminderDue db now)).take batchSize

/-! ## Notification service (`notification.service.ts`) -/

/-- Store-plus-trace state threaded through the dispatch code. -/
abbrev St := DB × List Event

/-- The human-readable lead time (`minutesBefore >= 60 ? ... hour(s) : ... minutes`,
with `Math.floor` division). -/
def timeText (minutesBefore : Nat) : String :=
  if minutesBefore ≥ 60 then toString (minutesBefore / 60) ++ " hour(s)"
  else toString minutesBefore ++ " minutes"

/-- `NotificationService.create`: fetches the user's settings, writes a
`Notification` row only when in-app notifications are enabled (or no settings
row exists), and otherwise returns a dummy notification (`isRead: true`)
without writing.  A rejecting `prisma.notification.create` is an
`Except.error` carrying the unchanged store. -/
def svcCreate (fault : Fault) (db : DB) (uid : Nat) (t : NotificationType)
    (title message : String) (related : Option Nat) :
    Except DB (DB × Notification) :=
  let settings := findSettings db uid
  if inAppAllowed settings then
    if fault.inAppThrows uid then Except.error db
    else
      let n : Notification :=
        { userId := uid, ntype := t, title := title, message := message,
          isRead := false, relatedMeetingId := related }
      Except.ok ({ db with notifications := db.notifications ++ [n] }, n)
  else
    Except.ok (db, { userId := uid, ntype := t, title := title,
                     message := message, isRead := true,
                     relatedMeetingId := related })

/-- `NotificationService.sendExternalNotifications`: looks up the user (with
settings); if found, invokes the email sender unless
`settings?.emailNotificationsEnabled !== false` fails, and the push sender
unless `settings?.pushNotificationsEnabled !== false` fails; each call sits
in its own `try`/`catch`, so a throwing sender only leaves an error event.
The store is not written. -/
def svcSendExternal (fault : Fault) (db : DB) (uid : Nat) : List Event :=
  match findUser db uid with
  | none => []
  | some _ =>
    let s := findSettings db uid
    (if emailAllowed s then
       Event.emailCall Src.svc uid ::
         (if fault.emailThrows uid then [Event.emailError uid] else [])
     else []) ++
    (if pushAllowed s then
       Event.pushCall Src.svc uid ::
         (if fault.pushThrows uid then [Event.pushError uid] else [])
     else [])

/-- `NotificationService.createMeetingReminder`: `create` (whose throw
propagates) followed by `sendExternalNotifications`. -/
def svcCreateMeetingReminder (fault : Fault) (db : DB) (uid mid : Nat)
    (meetingTitle : String) (minutesBefore : Nat) : Except St St :=
  let msg := "\"" ++ meetingTitle ++ "\" starts in " ++ timeText minutesBefore
  match svcCreate fault db uid NotificationType.MEETING_REMINDER
      "Meeting Reminder" msg (some mid) with
  | Except.error db' => Except.error (db', [])
  | Except.ok (db', _) => Except.ok (db', svcSendExternal fault db' uid)

/-- `NotificationService.createMeetingCancellation`: `create` followed by
`sendExternalNotifications`. -/
def svcCreateMeetingCancellation (fault : Fault) (db : DB) (uid mid : Nat)
    (meetingTitle cancellerName : String) : Except St St :=
  let msg := cancellerName ++ " cancelled the meeting \"" ++ meetingTitle ++ "\""
  match svcCreate fault db uid NotificationType.MEETING_CANCELLED
      "Meeting Cancelled" msg (some mid) with
  | Except.error db' => Except.error (db', [])
  | Except.ok (db', _) => Except.ok (db', svcSendExternal fault db' uid)

/-! ## Dispatch loop (`processReminders`, per-reminder processing) -/

/-- A `for` loop whose body may throw: the error short-circuits, carrying the
state at the throw point. -/
def foldE {α σ : Type} (f : σ → α → Except σ σ) : σ → List α → Except σ σ
  | s, [] => Except.ok s
  | s, a :: l =>
    match f s a with
    | Except.ok s' => foldE f s' l
    | Except.error s' => Except.error s'

/-- The `try`/`catch`-guarded email-sender invocation of the dispatch loop:
the call event, followed by a caught-error event when the transport
throws. -/
def loopEmailEvents (fault : Fault) (s : Option UserSettings) (uid : Nat) :
    List Event :=
  if emailAllowed s then
    Event.emailCall Src.loop uid ::
      (if fault.emailThrows uid then [Event.emailError uid] else [])
  else []

/-- The `try`/`catch`-guarded push-sender invocation of the dispatch loop. -/
def loopPushEvents (fault : Fault) (s : Option UserSettings) (uid : Nat) :
    List Event :=
  if pushAllowed s then
    Event.pushCall Src.loop uid ::
      (if fault.pushThrows uid then [Event.pushError uid] else [])
  else []

/-- The body of the per-participant loop of `processReminders`: skip
participants without a linked account, fetch settings once, then (a) if
in-app is enabled call `notificationService.createMeetingReminder` (its
throw propagates — no local `try`/`catch`), (b) if email is enabled invoke
the email sender inside `try`/`catch`, (c) if push is enabled invoke the
push sender inside `try`/`catch`. -/
def jobProcessParticipant (fault : Fault) (m : Meeting) (r : Reminder)
    (st : St) (p : Participant) : Except St St :=
  match p.userId with
  | none => Except.ok st
  | some uid =>
    match findUser st.1 uid with
    | none => Except.ok st
    | some _ =>
      let settings := findSettings st.1 uid
      let step1 : Except St St :=
        if inAppAllowed settings then
          match svcCreateMeetingReminder fault st.1 uid m.id m.title
              r.minutesBefore with
          | Except.error (db', evs) => Except.error (db', st.2 ++ evs)
          | Except.ok (db', evs) => Except.ok (db', st.2 ++ evs)
        else Except.ok st
      match step1 with
      | Except.error st' => Except.error st'
      | Except.ok (db1, log1) =>
        Except.ok (db1, log1 ++ loopEmailEvents fault settings uid
          ++ loopPushEvents fault settings uid)

/-- The row update of `prisma.meetingReminder.update({ where: { id } })`:
on the matching row set `sentAt = now` and all three channel flags. -/
def markRow (rid : Nat) (ts : Int) (r : Reminder) : Reminder :=
  if r.id == rid then
    { r with sentAt := some ts, emailSent := true, pushSent := true,
             inAppCreated := true }
  else r

/-- `prisma.meetingReminder.update` marking a reminder sent:
`sentAt = now`, all three channel flags `true`. -/
def markReminderSent (db : DB) (rid : Nat) (ts : Int) : DB :=
  { db with reminders := db.reminders.map (markRow rid ts) }

/-- One iteration of the per-reminder loop of `processReminders`: process
every participant of the reminder's meeting; if none of them threw, mark the
reminder sent; a throw is caught here (`catch` at the reminder level) and
logged, leaving the reminder unmarked.  `reminderStart` marks the loop
reaching this reminder. -/
def jobProcessReminder (fault : Fault) (now : Int) (st : St) (r : Reminder) :
    St :=
  let log0 := st.2 ++ [Event.reminderStart r.id]
  match findMeeting st.1 r.meetingId with
  | none => (st.1, log0 ++ [Event.reminderError r.id])
  | some m =>
    match foldE (jobProcessParticipant fault m r) (st.1, log0)
        m.participants with
    | Except.ok (db', log') => (markReminderSent db' r.id now, log')
    | Except.error (db', log') => (db', log' ++ [Event.reminderError r.id])

/-- `processReminders`: select the due batch once, then process each selected
reminder in order (per-reminder exceptions are caught inside
`jobProcessReminder`, so the loop always reaches every reminder). -/
def processReminders (fault : Fault) (db : DB) (now : Int) : St :=
  (selectReminders db now).foldl (jobProcessReminder fault now) (db, [])

/-! ## Reminder lifecycle (`MeetingService`) -/

/-- A fresh `MeetingReminder` row as built by `MeetingService.createReminders`:
`scheduledFor = startTime - minutes * 60 * 1000`.  Row ids are generated by
the store; we model generation as consecutive ids from a base. -/
def mkReminder (rid mid : Nat) (startTime : Int) (minutes : Nat) : Reminder :=
  { id := rid, meetingId := mid, minutesBefore := minutes,
    scheduledFor := startTime - (minutes : Int) * 60000,
    sentAt := none, emailSent := false, pushSent := false,
    inAppCreated := false }

/-- `MeetingService.createReminders`: `createMany` of one row per entry of
`minutesBefore`. -/
def createReminders (baseId : Nat) (store : List Reminder) (mid : Nat)
    (startTime : Int) (minutesBefore : List Nat) : List Reminder :=
  store ++ minutesBefore.enum.map (fun im =>
    mkReminder (baseId + im.1) mid startTime im.2)

/-- `prisma.meetingReminder.deleteMany({ where: { meetingId } })`. -/
def deleteRemindersOf (store : List Reminder) (mid : Nat) : List Reminder :=
  store.filter (fun r => r.meetingId != mid)

/-- The regenerate operation of `MeetingService.update` (and, with an empty
prior state, of `create`): delete all reminder rows of the meeting, then
insert one per lead time. -/
def regenerateReminders (baseId : Nat) (store : List Reminder) (mid : Nat)
    (startTime : Int) (minutesBefore : List Nat) : List Reminder :=
  createReminders baseId (deleteRemindersOf store mid) mid startTime
    minutesBefore

/-- The body of the notify loop of `MeetingService.cancel`: participants
with a linked account other than the canceller get
`createMeetingCancellation` (whose in-app write may throw — no `catch` in
`cancel`). -/
def cancelNotifyStep (fault : Fault) (mid uid : Nat)
    (title canceller : String) (st : St) (p : Participant) : Except St St :=
  if p.userId.isSome && p.userId != some uid then
    match p.userId with
    | some puid =>
      svcCreateMeetingCancellation fault st.1 puid mid title canceller |>.map
        (fun s => (s.1, st.2 ++ s.2)) |>.mapError
        (fun s => (s.1, st.2 ++ s.2))
    | none => Except.ok st
  else Except.ok st

/-- `MeetingService.cancel`: fetch the meeting (`getById`, which rejects when
the caller is neither a participant nor the creator), reject non-creators and
already-cancelled meetings, set `isCancelled`, delete the meeting's reminder
rows, then notify every other participant with a linked account via
`createMeetingCancellation` (whose in-app write may throw; `cancel` does not
catch it, but the cancellation and reminder deletion have already been
persisted at that point). -/
def cancelMeeting (fault : Fault) (db : DB) (mid uid : Nat) : Except St St :=
  match findMeeting db mid with
  | none => Except.error (db, [])
  | some meeting =>
    if meeting.participants.any (fun p => p.userId == some uid) ||
        meeting.createdByUserId == uid then
      if meeting.createdByUserId == uid then
        if meeting.isCancelled then Except.error (db, [])
        else
          let db1 : DB :=
            { db with meetings := db.meetings.map (fun m =>
                if m.id == mid then { m with isCancelled := true } else m) }
          let db2 : DB :=
            { db1 with reminders := deleteRemindersOf db1.reminders mid }
          let cancellerName :=
            match findUser db meeting.createdByUserId with
            | some u => u.name
            | none => ""
          foldE (cancelNotifyStep fault mid uid meeting.title cancellerName)
            (db2, []) meeting.participants
      else Except.error (db, [])
    else Except.error (db, [])

/-! ## Generic machinery for the exception-carrying fold -/

/-- The state carried by an `Except`-valued loop body, throw or no throw. -/
def outSt {σ : Type} : Except σ σ → σ
  | Except.ok s => s
  | Except.error s => s

/-- Both branches of two `Except` results are the same constructor and the
carried states are related. -/
def ExceptRel {σ : Type} (R : σ → σ → Prop) :
    Except σ σ → Except σ σ → Prop
  | Except.ok s, Except.ok t => R s t
  | Except.error s, Except.error t => R s t
  | _, _ => False

/-- The users, meetings and settings tables agree. -/
def SameCore (db db' : DB) : Prop :=
  db'.users = db.users ∧ db'.meetings = db.meetings ∧
    db'.settings = db.settings

/-- Frame of a channel-dispatch step: it may only append notifications and
trace events; users, meetings, settings and reminders are untouched. -/
def StFrame (st st' : St) : Prop :=
  SameCore st.1 st'.1 ∧ st'.1.reminders = st.1.reminders ∧
  (∃ ns, st'.1.notifications = st.1.notifications ++ ns) ∧
  (∃ evs, st'.2 = st.2 ++ evs)

/-- Number of reminder rows for a given (meeting, leadTime) pair. -/
def pairCount (store : List Reminder) (mid minutes : Nat) : Nat :=
  (store.filter (fun r => r.meetingId == mid && r.minutesBefore == minutes)).length

/-- The rows inserted by `createReminders`, starting at index `n` of the
lead-time list. -/
def newRows (baseId mid : Nat) (startTime : Int) (lts : List Nat) (n : Nat) :
    List Reminder :=
  (List.enumFrom n lts).map (fun im => mkReminder (baseId + im.1) mid startTime im.2)

/-- Event is a `reminderStart` marker. -/
def isReminderStart : Event → Bool
  | Event.reminderStart _ => true
  | _ => false

/-- Event is not a caught-email-error log entry. -/
def isNotEmailError : Event → Bool
  | Event.emailError _ => false
  | _ => true

/-- The user a channel event is keyed by. -/
def eventKey : Event → Option Nat
  | Event.emailCall _ u => some u
  | Event.pushCall _ u => some u
  | Event.emailError u => some u
  | Event.pushError u => some u
  | Event.reminderStart _ => none
  | Event.reminderError _ => none

/-- Number of email-sender invocations for a user in a trace. -/
def countEmail (l : List Event) (uid : Nat) : Nat :=
  (l.filter (fun e => match e with
    | Event.emailCall _ u => u == uid
    | _ => false)).length

/-- Number of push-sender invocations for a user in a trace. -/
def countPush (l : List Event) (uid : Nat) : Nat :=
  (l.filter (fun e => match e with
    | Event.pushCall _ u => u == uid
    | _ => false)).length

/-- Number of in-app notification rows for a user. -/
def countNotif (l : List Notification) (uid : Nat) : Nat :=
  (l.filter (fun n => n.userId == uid)).length

/-- Number of email-sender invocations for a user made directly by the
dispatch loop (as opposed to via the notification service). -/
def countEmailLoop (l : List Event) (uid : Nat) : Nat :=
  (l.filter (fun e => e == Event.emailCall Src.loop uid)).length

/-- No linked participant of the reminder's meeting has a throwing in-app
write. -/
def NoInAppFaultFor (fault : Fault) (db : DB) (r : Reminder) : Prop :=
  ∀ m, findMeeting db r.meetingId = some m →
    ∀ p ∈ m.participants, ∀ uid, p.userId = some uid →
      fault.inAppThrows uid = false

/-- The Notification row written by `createMeetingReminder`. -/
def reminderNotifRow (uid mid : Nat) (title : String) (minutes : Nat) :
    Notification :=
  { userId := uid, ntype := NotificationType.MEETING_REMINDER,
    title := "Meeting Reminder",
    message := "\"" ++ title ++ "\" starts in " ++ timeText minutes,
    isRead := false, relatedMeetingId := some mid }

/-- Closed form of the trace events of one participant iteration of the
dispatch loop, in the absence of in-app write faults. -/
def participantEventsNF (fault : Fault) (db : DB) (p : Participant) :
    List Event :=
  match p.userId with
  | none => []
  | some uid =>
    match findUser db uid with
    | none => []
    | some _ =>
      let s := findSettings db uid
      (if inAppAllowed s then svcSendExternal fault db uid else []) ++
        (loopEmailEvents fault s uid ++ loopPushEvents fault s uid)

/-- Closed form of the notification rows written by one participant
iteration of the dispatch loop, in the absence of in-app write faults. -/
def participantNotifsNF (db : DB) (p : Participant) (mid : Nat)
    (title : String) (minutes : Nat) : List Notification :=
  match p.userId with
  | none => []
  | some uid =>
    match findUser db uid with
    | none => []
    | some _ =>
      if inAppAllowed (findSettings db uid) then
        [reminderNotifRow uid mid title minutes]
      else []

/-- Two dispatch states that agree on the whole store and on every trace
event except caught-email-error entries. -/
def EmailFaultRel (s1 s2 : St) : Prop :=
  s1.1 = s2.1 ∧
    s1.2.filter isNotEmailError = s2.2.filter isNotEmailError

/-! ## Shared concrete fixtures -/

/-- The fault oracle under which no channel call throws. -/
def noFault : Fault := ⟨fun _ => false, fun _ => false, fun _ => false⟩

/-- The fault oracle under which every in-app notification write throws. -/
def inAppFault : Fault := ⟨fun _ => true, fun _ => false, fun _ => false⟩

/-- The fault oracle under which every email send throws. -/
def emailFault : Fault := ⟨fun _ => false, fun _ => true, fun _ => false⟩

/-- Example users. -/
def exUser1 : User := { id := 1, email := "a@x", name := "A" }

def exUser2 : User := { id := 2, email := "b@x", name := "B" }

/-- An example upcoming meeting with two linked participants and one
account-less participant. -/
def exMeeting : Meeting :=
  { id := 10, title := "Standup", isCancelled := false,
    startTime := 1000000, endTime := 2000000, createdByUserId := 1,
    participants := [ { email := "a@x", userId := some 1 },
                      { email := "b@x", userId := some 2 },
                      { email := "c@x", userId := none } ] }

/-- An example pending reminder of `exMeeting`, due at `now = 100000`. -/
def exReminder : Reminder :=
  { id := 5, meetingId := 10, minutesBefore := 15, scheduledFor := 100000,
    sentAt := none, emailSent := false, pushSent := false,
    inAppCreated := false }

/-- An example store: `exMeeting` with its due reminder, no settings rows. -/
def exDB : DB :=
  { users := [exUser1, exUser2], meetings := [exMeeting],
    reminders := [exReminder], settings := [], notifications := [] }

/-- Settings row disabling in-app notifications for user 1 (other channels
enabled). -/
def exSettingsNoInApp : UserSettings :=
  { userId := 1, emailNotificationsEnabled := true,
    pushNotificationsEnabled := true, inAppNotificationsEnabled := false }

/-- `exDB` with in-app notifications disabled for user 1. -/
def exDBNoInApp : DB := { exDB with settings := [exSettingsNoInApp] }

/-- The store after cancelling `exMeeting` (meeting 10) in `exDB`. -/
def exCancelledSt : St := outSt (cancelMeeting noFault exDB 10 1)

/-- Settings row disabling push for user 2 (other channels enabled). -/
def exSettingsPushOff : UserSettings :=
  { userId := 2, emailNotificationsEnabled := true,
    pushNotificationsEnabled := false, inAppNotificationsEnabled := true }

/-- `exDB` with push notifications disabled for user 2. -/
def exDBPushOff : DB := { exDB with settings := [exSettingsPushOff] }

/-- Settings row for user 1 with in-app enabled but email and push
disabled. -/
def exSettingsEmailOff : UserSettings :=
  { userId := 1, emailNotificationsEnabled := false,
    pushNotificationsEnabled := false, inAppNotificationsEnabled := true }

/-- `exDB` with email and push disabled for user 1 (in-app still on). -/
def exDBEmailOff : DB := { exDB with settings := [exSettingsEmailOff] }

/-! ## Generic fold lemmas -/

theorem foldE_out_rel {α σ : Type} (R : σ → σ → Prop)
    (hrefl : ∀ s, R s s) (htrans : ∀ a b c, R a b → R b c → R a c)
    (f : σ → α → Except σ σ) (hf : ∀ s a, R s (outSt (f s a))) :
    ∀ (l : List α) (s : σ), R s (outSt (foldE f s l)) := by
  intro l
  induction l with
  | nil => intro s; exact hrefl s
  | cons a l ih =>
    intro s
    show R s (outSt (match f s a with
      | Except.ok s' => foldE f s' l
      | Except.error s' => Except.error s'))
    cases h : f s a with
    | ok s' =>
      have h1 : R s s' := by have := hf s a; rw [h] at this; exact this
      exact htrans _ _ _ h1 (ih s')
    | error s' =>
      have h1 : R s s' := by have := hf s a; rw [h] at this; exact this
      exact h1

/-! ## C2: the reminder selector -/

/-- **C2.** Given the current time `now`, the selector returns at most 100
reminders; every returned reminder is a stored reminder with
`fireTime ≤ now + 1 minute`, `sentAt = null`, an owning meeting that is not
cancelled and whose `startTime > now`; and whenever at most 100 stored
reminders satisfy those conditions, every stored reminder satisfying them is
returned (so reminders failing any condition are never returned, and all
qualifying ones are returned up to the cap). -/
theorem claim2_selector_returns_exactly_the_due_batch (db : DB) (now : Int) :
    (selectReminders db now).length ≤ batchSize ∧
    (∀ r ∈ selectReminders db now,
       r ∈ db.reminders ∧ r.scheduledFor ≤ now + lookAheadMs ∧
       r.sentAt = none ∧
       ∃ m, findMeeting db r.meetingId = some m ∧
         m.isCancelled = false ∧ now < m.startTime) ∧
    ((db.reminders.filter (reminderDue db now)).length ≤ batchSize →
       ∀ r ∈ db.reminders, reminderDue db now r = true →
         r ∈ selectReminders db now) := by
  refine ⟨?_, ?_, ?_⟩
  · simp only [selectReminders, List.length_take]
    exact min_le_left _ _
  · intro r hr
    have hr' : r ∈ db.reminders.filter (reminderDue db now) :=
      List.mem_of_mem_take hr
    have hmem := List.mem_filter.mp hr'
    refine ⟨hmem.1, ?_⟩
    have hdue := hmem.2
    simp only [reminderDue, Bool.and_eq_true, decide_eq_true_eq,
      beq_iff_eq] at hdue
    obtain ⟨⟨h1, h2⟩, h3⟩ := hdue
    refine ⟨h1, h2, ?_⟩
    cases hm : findMeeting db r.meetingId with
    | none => rw [hm] at h3; exact absurd h3 (by simp)
    | some m =>
      rw [hm] at h3
      simp only [Bool.and_eq_true, Bool.not_eq_true', decide_eq_true_eq] at h3
      exact ⟨m, rfl, h3.1, h3.2⟩
  · intro hlen r hmem hdue
    have hr' : r ∈ db.reminders.filter (reminderDue db now) :=
      List.mem_filter.mpr ⟨hmem, hdue⟩
    simpa only [selectReminders, List.take_of_length_le hlen] using hr'

/-- Witness for C2 at a concrete store: the selector returns the one due
reminder of `exDB`, and its batch is within the cap. -/
theorem claim2_witness :
    exReminder ∈ selectReminders exDB 100000 ∧
    (selectReminders exDB 100000).length ≤ batchSize := by
  constructor
  · exact (claim2_selector_returns_exactly_the_due_batch exDB 100000).2.2
      (by decide) exReminder (by decide) (by decide)
  · exact (claim2_selector_returns_exactly_the_due_batch exDB 100000).1

/-! ## Frame lemmas: what each operation can and cannot write -/

/-- The selector soundness core: every selected reminder is a stored
reminder satisfying the selection predicate. -/
theorem selectReminders_sound {db : DB} {now : Int} {r : Reminder}
    (hr : r ∈ selectReminders db now) :
    r ∈ db.reminders ∧ reminderDue db now r = true := by
  have hr' : r ∈ db.reminders.filter (reminderDue db now) :=
    List.mem_of_mem_take hr
  exact ⟨(List.mem_filter.mp hr').1, (List.mem_filter.mp hr').2⟩

theorem stFrame_refl (st : St) : StFrame st st :=
  ⟨⟨Eq.refl _, Eq.refl _, Eq.refl _⟩, Eq.refl _, ⟨[], by simp⟩, ⟨[], by simp⟩⟩

theorem StFrame.trans {a b c : St} (h1 : StFrame a b) (h2 : StFrame b c) :
    StFrame a c := by
  obtain ⟨⟨hu1, hm1, hs1⟩, hr1, ⟨ns1, hn1⟩, ⟨ev1, he1⟩⟩ := h1
  obtain ⟨⟨hu2, hm2, hs2⟩, hr2, ⟨ns2, hn2⟩, ⟨ev2, he2⟩⟩ := h2
  refine ⟨⟨hu2.trans hu1, hm2.trans hm1, hs2.trans hs1⟩, hr2.trans hr1,
    ⟨ns1 ++ ns2, ?_⟩, ⟨ev1 ++ ev2, ?_⟩⟩
  · rw [hn2, hn1, List.append_assoc]
  · rw [he2, he1, List.append_assoc]

/-- `NotificationService.create` only ever appends notification rows; its
error branch returns the store unchanged. -/
theorem svcCreate_frame (fault : Fault) (db : DB) (uid : Nat)
    (t : NotificationType) (title message : String) (related : Option Nat) :
    (∀ db' n, svcCreate fault db uid t title message related =
        Except.ok (db', n) →
      SameCore db db' ∧ db'.reminders = db.reminders ∧
      ∃ ns, db'.notifications = db.notifications ++ ns) ∧
    (∀ db', svcCreate fault db uid t title message related =
        Except.error db' → db' = db) := by
  constructor
  · intro db' n h
    simp only [svcCreate] at h
    split at h
    · split at h
      · cases h
      · injection h with h'
        injection h' with h1 h2
        subst h1
        exact ⟨⟨rfl, rfl, rfl⟩, rfl, ⟨_, rfl⟩⟩
    · injection h with h'
      injection h' with h1 h2
      subst h1
      exact ⟨⟨rfl, rfl, rfl⟩, rfl, ⟨[], by simp⟩⟩
  · intro db' h
    simp only [svcCreate] at h
    split at h
    · split at h
      · injection h with h'
        exact h'.symm
      · cases h
    · cases h

/-- `createMeetingReminder` satisfies the dispatch frame in both branches. -/
theorem svcCreateMeetingReminder_frame (fault : Fault) (db : DB)
    (uid mid : Nat) (title : String) (minutes : Nat) (log : List Event) :
    StFrame (db, log)
      (outSt ((svcCreateMeetingReminder fault db uid mid title minutes).map
          (fun s => (s.1, log ++ s.2)) |>.mapError
          (fun s => (s.1, log ++ s.2)))) := by
  simp only [svcCreateMeetingReminder]
  cases h : svcCreate fault db uid NotificationType.MEETING_REMINDER
      "Meeting Reminder"
      ("\"" ++ title ++ "\" starts in " ++ timeText minutes) (some mid) with
  | ok p =>
    obtain ⟨db', n⟩ := p
    have hf := (svcCreate_frame fault db uid _ _ _ _).1 db' n (by rw [h])
    simp only [Except.map, Except.mapError, outSt]
    exact ⟨hf.1, hf.2.1, hf.2.2, ⟨_, rfl⟩⟩
  | error db' =>
    have hf := (svcCreate_frame fault db uid _ _ _ _).2 db' (by rw [h])
    subst hf
    simp only [Except.map, Except.mapError, outSt]
    exact ⟨⟨rfl, rfl, rfl⟩, rfl, ⟨[], by simp⟩, ⟨[], by simp⟩⟩

/-- `createMeetingCancellation` satisfies the dispatch frame in both
branches. -/
theorem svcCreateMeetingCancellation_frame (fault : Fault) (db : DB)
    (uid mid : Nat) (title canceller : String) (log : List Event) :
    StFrame (db, log)
      (outSt ((svcCreateMeetingCancellation fault db uid mid title
          canceller).map (fun s => (s.1, log ++ s.2)) |>.mapError
          (fun s => (s.1, log ++ s.2)))) := by
  simp only [svcCreateMeetingCancellation]
  cases h : svcCreate fault db uid NotificationType.MEETING_CANCELLED
      "Meeting Cancelled"
      (canceller ++ " cancelled the meeting \"" ++ title ++ "\"")
      (some mid) with
  | ok p =>
    obtain ⟨db', n⟩ := p
    have hf := (svcCreate_frame fault db uid _ _ _ _).1 db' n (by rw [h])
    simp only [Except.map, Except.mapError, outSt]
    exact ⟨hf.1, hf.2.1, hf.2.2, ⟨_, rfl⟩⟩
  | error db' =>
    have hf := (svcCreate_frame fault db uid _ _ _ _).2 db' (by rw [h])
    subst hf
    simp only [Except.map, Except.mapError, outSt]
    exact ⟨⟨rfl, rfl, rfl⟩, rfl, ⟨[], by simp⟩, ⟨[], by simp⟩⟩

/-! ## C4: the in-app writer and the notification preference -/

/-- **C4, counterexample.**  The claim says every call to the in-app writer
writes a Notification row regardless of `inAppNotificationsEnabled`.  On the
code, calling `NotificationService.create` for user 1, whose settings row has
in-app disabled, writes nothing: it returns the dummy notification
(`isRead = true`) and the unchanged store. -/
theorem claim4_counterexample :
    inAppAllowed (findSettings exDBNoInApp 1) = false ∧
    svcCreate noFault exDBNoInApp 1 NotificationType.MEETING_REMINDER
        "t" "m" none =
      Except.ok (exDBNoInApp,
        { userId := 1, ntype := NotificationType.MEETING_REMINDER,
          title := "t", message := "m", isRead := true,
          relatedMeetingId := none }) :=
  ⟨rfl, rfl⟩

/-- **C4, amended.**  `NotificationService.create` re-checks the user's
in-app preference: when the user has no settings row or in-app notifications
are enabled, it appends exactly the new Notification row and returns it;
when in-app is disabled it writes nothing and returns a dummy notification
with `isRead = true`. -/
theorem claim4_create_rechecks_inapp_preference (fault : Fault) (db : DB)
    (uid : Nat) (t : NotificationType) (title message : String)
    (related : Option Nat) (hf : fault.inAppThrows uid = false) :
    svcCreate fault db uid t title message related =
      if inAppAllowed (findSettings db uid) then
        Except.ok ({ db with notifications := db.notifications ++
            [{ userId := uid, ntype := t, title := title, message := message,
               isRead := false, relatedMeetingId := related }] },
          { userId := uid, ntype := t, title := title, message := message,
            isRead := false, relatedMeetingId := related })
      else
        Except.ok (db,
          { userId := uid, ntype := t, title := title, message := message,
            isRead := true, relatedMeetingId := related }) := by
  simp only [svcCreate, hf]
  split <;> simp

/-- Witness for C4 at a concrete store: user 1 of `exDB` has no settings row,
so the row is written. -/
theorem claim4_witness :
    noFault.inAppThrows 1 = false ∧
    svcCreate noFault exDB 1 NotificationType.MEETING_REMINDER "t" "m" none =
      if inAppAllowed (findSettings exDB 1) then
        Except.ok ({ exDB with notifications := exDB.notifications ++
            [{ userId := 1, ntype := NotificationType.MEETING_REMINDER,
               title := "t", message := "m", isRead := false,
               relatedMeetingId := none }] },
          { userId := 1, ntype := NotificationType.MEETING_REMINDER,
            title := "t", message := "m", isRead := false,
            relatedMeetingId := none })
      else
        Except.ok (exDB,
          { userId := 1, ntype := NotificationType.MEETING_REMINDER,
            title := "t", message := "m", isRead := true,
            relatedMeetingId := none }) :=
  ⟨rfl, claim4_create_rechecks_inapp_preference noFault exDB 1
    NotificationType.MEETING_REMINDER "t" "m" none rfl⟩

/-! ## C7: regenerating reminders -/

theorem createReminders_eq (baseId : Nat) (store : List Reminder) (mid : Nat)
    (startTime : Int) (lts : List Nat) :
    createReminders baseId store mid startTime lts =
      store ++ newRows baseId mid startTime lts 0 := rfl

theorem mem_newRows (baseId mid : Nat) (startTime : Int) :
    ∀ (lts : List Nat) (n : Nat) (r : Reminder),
      r ∈ newRows baseId mid startTime lts n →
      r.meetingId = mid ∧ r.minutesBefore ∈ lts ∧
      r.scheduledFor = startTime - (r.minutesBefore : Int) * 60000 ∧
      r.sentAt = none := by
  intro lts
  induction lts with
  | nil => intro n r hr; exact absurd hr (by simp [newRows])
  | cons a l ih =>
    intro n r hr
    have : r = mkReminder (baseId + n) mid startTime a ∨
        r ∈ newRows baseId mid startTime l (n + 1) := by
      simpa [newRows, List.enumFrom] using hr
    rcases this with h | h
    · subst h; simp [mkReminder]
    · have := ih (n + 1) r h
      exact ⟨this.1, List.mem_cons_of_mem _ this.2.1, this.2.2⟩

theorem pairCount_newRows (baseId mid minutes : Nat) (startTime : Int) :
    ∀ (lts : List Nat) (n : Nat),
      pairCount (newRows baseId mid startTime lts n) mid minutes =
        lts.count minutes := by
  intro lts
  induction lts with
  | nil => intro n; rfl
  | cons a l ih =>
    intro n
    by_cases h : a = minutes
    · subst h
      simp [pairCount, newRows, List.enumFrom, mkReminder, List.filter_cons,
        List.count_cons]
      simpa [pairCount, newRows] using ih (n + 1)
    · simp [pairCount, newRows, List.enumFrom, mkReminder, List.filter_cons,
        List.count_cons, h, Ne.symm h]
      simpa [pairCount, newRows] using ih (n + 1)

theorem filter_ne_newRows (baseId mid : Nat) (startTime : Int)
    (lts : List Nat) (n : Nat) :
    (newRows baseId mid startTime lts n).filter (fun r => r.meetingId != mid)
      = [] := by
  rw [List.filter_eq_nil_iff]
  intro r hr
  have := (mem_newRows baseId mid startTime lts n r hr).1
  simp [this]

theorem deleteRemindersOf_idem (store : List Reminder) (mid : Nat) :
    (deleteRemindersOf store mid).filter (fun r => r.meetingId != mid) =
      deleteRemindersOf store mid := by
  rw [List.filter_eq_self]
  intro r hr
  exact (List.mem_filter.mp hr).2

/-- **C7, counterexample.**  The claim quantifies over every lead-time list
and asserts the store afterwards holds at most one row per
(meeting, leadTime) pair.  Regenerating with the duplicated list `[15, 15]`
(which the input validation does not forbid: `createMany` inserts one row
per entry) leaves two rows for the pair (meeting 10, 15 minutes). -/
theorem claim7_counterexample :
    pairCount (regenerateReminders 100 [] 10 1000000 [15, 15]) 10 15 = 2 := by
  decide

/-- **C7, amended.**  For every meeting, start time and *duplicate-free*
lead-time list, regenerate deletes all existing rows of the meeting and then
inserts one row per lead time with `fireTime = startTime - leadTime` minutes:
afterwards the store holds exactly one row for the regenerated meeting per
configured lead time and none for any other lead time, rows of other
meetings are untouched, and regenerate is idempotent. -/
theorem claim7_regenerate_deletes_then_inserts (baseId : Nat)
    (store : List Reminder) (mid : Nat) (startTime : Int)
    (leadTimes : List Nat) (hnd : leadTimes.Nodup) :
    (regenerateReminders baseId store mid startTime leadTimes =
       deleteRemindersOf store mid ++ newRows baseId mid startTime leadTimes 0) ∧
    (∀ minutes, pairCount (regenerateReminders baseId store mid startTime leadTimes)
        mid minutes = if minutes ∈ leadTimes then 1 else 0) ∧
    (∀ r ∈ regenerateReminders baseId store mid startTime leadTimes,
       r.meetingId = mid →
       r.minutesBefore ∈ leadTimes ∧
       r.scheduledFor = startTime - (r.minutesBefore : Int) * 60000 ∧
       r.sentAt = none) ∧
    ((regenerateReminders baseId store mid startTime leadTimes).filter
        (fun r => r.meetingId != mid) = deleteRemindersOf store mid) ∧
    (regenerateReminders baseId
        (regenerateReminders baseId store mid startTime leadTimes)
        mid startTime leadTimes =
      regenerateReminders baseId store mid startTime leadTimes) := by
  have hsplit : regenerateReminders baseId store mid startTime leadTimes =
      deleteRemindersOf store mid ++ newRows baseId mid startTime leadTimes 0 :=
    createReminders_eq baseId (deleteRemindersOf store mid) mid startTime leadTimes
  have hdelcount : ∀ minutes,
      pairCount (deleteRemindersOf store mid) mid minutes = 0 := by
    intro minutes
    simp only [pairCount, List.length_eq_zero]
    rw [List.filter_eq_nil_iff]
    intro r hr
    have h2 := (List.mem_filter.mp hr).2
    simp only [bne_iff_ne, ne_eq] at h2
    simp [h2]
  refine ⟨hsplit, ?_, ?_, ?_, ?_⟩
  · intro minutes
    rw [hsplit]
    simp only [pairCount, List.filter_append, List.length_append]
    have h1 := hdelcount minutes
    simp only [pairCount] at h1
    rw [h1]
    have h2 := pairCount_newRows baseId mid minutes startTime leadTimes 0
    simp only [pairCount] at h2
    rw [h2]
    by_cases hm : minutes ∈ leadTimes
    · simp [hm, List.count_eq_one_of_mem hnd hm]
    · simp [hm, List.count_eq_zero_of_not_mem hm]
  · intro r hr hrmid
    rw [hsplit] at hr
    rcases List.mem_append.mp hr with h | h
    · have h2 := (List.mem_filter.mp h).2
      simp only [bne_iff_ne, ne_eq] at h2
      exact absurd hrmid h2
    · exact (mem_newRows baseId mid startTime leadTimes 0 r h).2
  · rw [hsplit, List.filter_append, filter_ne_newRows,
      deleteRemindersOf_idem, List.append_nil]
  · have hdel : deleteRemindersOf
        (regenerateReminders baseId store mid startTime leadTimes) mid =
        deleteRemindersOf store mid := by
      show (regenerateReminders baseId store mid startTime leadTimes).filter
          (fun r => r.meetingId != mid) = deleteRemindersOf store mid
      rw [hsplit, List.filter_append, filter_ne_newRows,
        deleteRemindersOf_idem, List.append_nil]
    show createReminders baseId
        (deleteRemindersOf (regenerateReminders baseId store mid startTime leadTimes) mid)
        mid startTime leadTimes = _
    rw [hdel]
    rfl

/-- Witness for C7 at concrete inputs: regenerating meeting 10 with lead
times `[15, 5]` leaves exactly one row per lead time. -/
theorem claim7_witness :
    pairCount (regenerateReminders 100 [exReminder] 10 1000000 [15, 5]) 10 15 =
      (if 15 ∈ [15, 5] then 1 else 0) :=
  (claim7_regenerate_deletes_then_inserts 100 [exReminder] 10 1000000 [15, 5]
    (by decide)).2.1 15

/-! ## C8: cancelling a meeting -/

/-- Extraction form of the frame fold: a successful `foldE` of
frame-preserving steps relates initial and final state by `StFrame`. -/
theorem foldE_frame_ok {α : Type} {f : St → α → Except St St}
    (hf : ∀ st p, StFrame st (outSt (f st p))) {s : St} {l : List α}
    {s' : St} (h : foldE f s l = Except.ok s') : StFrame s s' := by
  have hfr := foldE_out_rel StFrame stFrame_refl
    (fun _ _ _ h1 h2 => StFrame.trans h1 h2) f hf l s
  rw [h] at hfr
  exact hfr

/-- The notify loop of `cancel` satisfies the dispatch frame: in particular
it never writes reminder rows. -/
theorem cancelNotifyStep_frame (fault : Fault) (mid uid : Nat)
    (title canceller : String) (st : St) (p : Participant) :
    StFrame st (outSt (cancelNotifyStep fault mid uid title canceller st p)) := by
  simp only [cancelNotifyStep]
  split
  · cases hp : p.userId with
    | none => exact stFrame_refl st
    | some puid =>
      have := svcCreateMeetingCancellation_frame fault st.1 puid mid title
        canceller st.2
      simpa using this
  · exact stFrame_refl st

/-- **C8.**  Cancelling a meeting deletes all of its reminder rows: when
`MeetingService.cancel` succeeds, the resulting store holds no reminder of
that meeting, and no later selector run (at any time) returns a reminder of
that meeting. -/
theorem claim8_cancel_removes_all_reminders (fault : Fault) (db : DB)
    (mid uid : Nat) (st' : St)
    (h : cancelMeeting fault db mid uid = Except.ok st') :
    (∀ r ∈ st'.1.reminders, r.meetingId ≠ mid) ∧
    (∀ now : Int, ∀ r ∈ selectReminders st'.1 now, r.meetingId ≠ mid) := by
  have hrem : ∀ r ∈ st'.1.reminders, r.meetingId ≠ mid := by
    simp only [cancelMeeting] at h
    split at h
    · cases h
    · split at h
      · split at h
        · split at h
          · cases h
          · have hfr := foldE_frame_ok
              (fun st p => cancelNotifyStep_frame fault mid uid _ _ st p) h
            have hrw := hfr.2.1
            intro r hr
            rw [hrw] at hr
            have := (List.mem_filter.mp hr).2
            simpa using this
        · cases h
      · cases h
  refine ⟨hrem, ?_⟩
  intro now r hr
  exact hrem r (selectReminders_sound hr).1

/-- Witness for C8 at a concrete store: cancelling meeting 10 of `exDB`
succeeds and afterwards no reminder of meeting 10 remains and none is ever
selected. -/
theorem claim8_witness :
    cancelMeeting noFault exDB 10 1 = Except.ok exCancelledSt ∧
    (∀ r ∈ exCancelledSt.1.reminders, r.meetingId ≠ 10) :=
  ⟨rfl, (claim8_cancel_removes_all_reminders noFault exDB 10 1
    exCancelledSt rfl).1⟩

/-! ## Dispatch-loop frame lemmas -/

theorem findMeeting_congr {db db' : DB} (h : db'.meetings = db.meetings)
    (mid : Nat) : findMeeting db' mid = findMeeting db mid := by
  simp [findMeeting, h]

theorem findUser_congr {db db' : DB} (h : db'.users = db.users) (uid : Nat) :
    findUser db' uid = findUser db uid := by
  simp [findUser, h]

theorem findSettings_congr {db db' : DB} (h : db'.settings = db.settings)
    (uid : Nat) : findSettings db' uid = findSettings db uid := by
  simp [findSettings, h]

/-- `sendExternalNotifications` only reads the user and settings tables, so
it is unaffected by appended notification rows. -/
theorem svcSendExternal_notifUpdate (fault : Fault) (db : DB)
    (ns : List Notification) (uid : Nat) :
    svcSendExternal fault { db with notifications := ns } uid =
      svcSendExternal fault db uid := rfl

/-- Participant without a linked account: the loop body is a no-op. -/
theorem jobPP_none (fault : Fault) (m : Meeting) (r : Reminder) (st : St)
    (p : Participant) (hp : p.userId = none) :
    jobProcessParticipant fault m r st p = Except.ok st := by
  simp [jobProcessParticipant, hp]

/-- Linked account whose user row is missing: the loop body is a no-op. -/
theorem jobPP_noUser (fault : Fault) (m : Meeting) (r : Reminder) (st : St)
    (p : Participant) (uid : Nat) (hp : p.userId = some uid)
    (hu : findUser st.1 uid = none) :
    jobProcessParticipant fault m r st p = Except.ok st := by
  simp [jobProcessParticipant, hp, hu]

/-- In-app enabled and the in-app write throws: the participant iteration
throws, with the store unchanged and no events logged. -/
theorem jobPP_throw (fault : Fault) (m : Meeting) (r : Reminder) (st : St)
    (p : Participant) (uid : Nat) (user : User) (hp : p.userId = some uid)
    (hu : findUser st.1 uid = some user)
    (hin : inAppAllowed (findSettings st.1 uid) = true)
    (hth : fault.inAppThrows uid = true) :
    jobProcessParticipant fault m r st p = Except.error (st.1, st.2) := by
  simp [jobProcessParticipant, hp, hu, svcCreateMeetingReminder, svcCreate,
    hin, hth]

/-- In-app enabled and the write succeeds: the reminder notification row is
appended and all three channels run. -/
theorem jobPP_ok_inapp (fault : Fault) (m : Meeting) (r : Reminder) (st : St)
    (p : Participant) (uid : Nat) (user : User) (hp : p.userId = some uid)
    (hu : findUser st.1 uid = some user)
    (hin : inAppAllowed (findSettings st.1 uid) = true)
    (hth : fault.inAppThrows uid = false) :
    jobProcessParticipant fault m r st p = Except.ok
      ({ st.1 with notifications := st.1.notifications ++
          [reminderNotifRow uid m.id m.title r.minutesBefore] },
        st.2 ++ participantEventsNF fault st.1 p) := by
  simp only [jobProcessParticipant, hp, hu, svcCreateMeetingReminder,
    svcCreate, hin, hth, if_true, Bool.false_eq_true, if_false,
    participantEventsNF, reminderNotifRow, svcSendExternal_notifUpdate]
  simp [List.append_assoc]

/-- In-app disabled: no notification row; email and push still run. -/
theorem jobPP_ok_noinapp (fault : Fault) (m : Meeting) (r : Reminder)
    (st : St) (p : Participant) (uid : Nat) (user : User)
    (hp : p.userId = some uid) (hu : findUser st.1 uid = some user)
    (hin : inAppAllowed (findSettings st.1 uid) = false) :
    jobProcessParticipant fault m r st p = Except.ok
      (st.1, st.2 ++ participantEventsNF fault st.1 p) := by
  simp only [jobProcessParticipant, hp, hu, svcCreateMeetingReminder,
    svcCreate, hin, Bool.false_eq_true, if_false, participantEventsNF]
  simp [List.append_assoc]

/-- Every step of the per-participant loop satisfies the dispatch frame. -/
theorem jobProcessParticipant_frame (fault : Fault) (m : Meeting)
    (r : Reminder) (st : St) (p : Participant) :
    StFrame st (outSt (jobProcessParticipant fault m r st p)) := by
  cases hp : p.userId with
  | none =>
    rw [jobPP_none fault m r st p hp]
    exact stFrame_refl st
  | some uid =>
    cases hu : findUser st.1 uid with
    | none =>
      rw [jobPP_noUser fault m r st p uid hp hu]
      exact stFrame_refl st
    | some user =>
      by_cases hin : inAppAllowed (findSettings st.1 uid) = true
      · by_cases hth : fault.inAppThrows uid = true
        · rw [jobPP_throw fault m r st p uid user hp hu hin hth]
          exact ⟨⟨rfl, rfl, rfl⟩, rfl, ⟨[], by simp [outSt]⟩,
            ⟨[], by simp [outSt]⟩⟩
        · rw [jobPP_ok_inapp fault m r st p uid user hp hu hin
            (by simpa using hth)]
          exact ⟨⟨rfl, rfl, rfl⟩, rfl,
            ⟨[reminderNotifRow uid m.id m.title r.minutesBefore],
              by simp [outSt]⟩,
            ⟨participantEventsNF fault st.1 p, by simp [outSt]⟩⟩
      · rw [jobPP_ok_noinapp fault m r st p uid user hp hu
          (by simpa using hin)]
        exact ⟨⟨rfl, rfl, rfl⟩, rfl, ⟨[], by simp [outSt]⟩,
          ⟨participantEventsNF fault st.1 p, by simp [outSt]⟩⟩

/-- Frame of the whole participant fold, throw or no throw. -/
theorem foldE_frame_out {α : Type} (f : St → α → Except St St)
    (hf : ∀ st p, StFrame st (outSt (f st p))) (s : St) (l : List α) :
    StFrame s (outSt (foldE f s l)) :=
  foldE_out_rel StFrame stFrame_refl (fun _ _ _ a b => a.trans b) f hf l s

/-- The missing-meeting branch of per-reminder processing (unreachable for
selected reminders): nothing but the trace markers change. -/
theorem jobPR_noMeeting (fault : Fault) (now : Int) (st : St) (r : Reminder)
    (hm : findMeeting st.1 r.meetingId = none) :
    jobProcessReminder fault now st r =
      (st.1, st.2 ++ [Event.reminderStart r.id] ++ [Event.reminderError r.id]) := by
  simp [jobProcessReminder, hm]

/-- Per-reminder processing when no participant throws: the reminder is
marked sent on the state left by the participant loop. -/
theorem jobPR_ok (fault : Fault) (now : Int) (st : St) (r : Reminder)
    (m : Meeting) (db' : DB) (log' : List Event)
    (hm : findMeeting st.1 r.meetingId = some m)
    (hfold : foldE (jobProcessParticipant fault m r)
      (st.1, st.2 ++ [Event.reminderStart r.id]) m.participants =
      Except.ok (db', log')) :
    jobProcessReminder fault now st r =
      (markReminderSent db' r.id now, log') := by
  simp [jobProcessReminder, hm, hfold]

/-- Per-reminder processing when a participant throws: the exception is
caught and logged and the reminder is left unmarked. -/
theorem jobPR_error (fault : Fault) (now : Int) (st : St) (r : Reminder)
    (m : Meeting) (db' : DB) (log' : List Event)
    (hm : findMeeting st.1 r.meetingId = some m)
    (hfold : foldE (jobProcessParticipant fault m r)
      (st.1, st.2 ++ [Event.reminderStart r.id]) m.participants =
      Except.error (db', log')) :
    jobProcessReminder fault now st r =
      (db', log' ++ [Event.reminderError r.id]) := by
  simp [jobProcessReminder, hm, hfold]

/-- Per-reminder processing: users, meetings and settings are untouched, the
trace grows by a `reminderStart` marker followed by this reminder's events,
notifications are only appended, and the reminder table is either unchanged
(a participant threw, or the meeting is missing) or marked for this
reminder's id. -/
theorem jobProcessReminder_core (fault : Fault) (now : Int) (st : St)
    (r : Reminder) :
    SameCore st.1 (jobProcessReminder fault now st r).1 ∧
    (∃ ns, (jobProcessReminder fault now st r).1.notifications =
      st.1.notifications ++ ns) ∧
    (∃ evs, (jobProcessReminder fault now st r).2 =
      st.2 ++ Event.reminderStart r.id :: evs) ∧
    ((jobProcessReminder fault now st r).1.reminders = st.1.reminders ∨
     (jobProcessReminder fault now st r).1.reminders =
       st.1.reminders.map (markRow r.id now)) := by
  cases hm : findMeeting st.1 r.meetingId with
  | none =>
    rw [jobPR_noMeeting fault now st r hm]
    exact ⟨⟨rfl, rfl, rfl⟩, ⟨[], by simp⟩,
      ⟨[Event.reminderError r.id], by simp⟩, Or.inl rfl⟩
  | some m =>
    have hfr := foldE_frame_out (jobProcessParticipant fault m r)
      (jobProcessParticipant_frame fault m r)
      (st.1, st.2 ++ [Event.reminderStart r.id]) m.participants
    cases hfold : foldE (jobProcessParticipant fault m r)
        (st.1, st.2 ++ [Event.reminderStart r.id]) m.participants with
    | ok q =>
      obtain ⟨db', log'⟩ := q
      rw [hfold] at hfr
      simp only [outSt] at hfr
      obtain ⟨⟨hus, hms, hss⟩, hrem, ⟨ns, hns⟩, ⟨evs, hevs⟩⟩ := hfr
      have hus' : db'.users = st.1.users := hus
      have hms' : db'.meetings = st.1.meetings := hms
      have hss' : db'.settings = st.1.settings := hss
      have hrem' : db'.reminders = st.1.reminders := hrem
      have hns' : db'.notifications = st.1.notifications ++ ns := hns
      have hevs' : log' = (st.2 ++ [Event.reminderStart r.id]) ++ evs := hevs
      rw [jobPR_ok fault now st r m db' log' hm hfold]
      refine ⟨⟨hus', hms', hss'⟩, ⟨ns, hns'⟩, ⟨evs, by rw [hevs']; simp⟩, ?_⟩
      right
      show db'.reminders.map (markRow r.id now) = _
      rw [hrem']
    | error q =>
      obtain ⟨db', log'⟩ := q
      rw [hfold] at hfr
      simp only [outSt] at hfr
      obtain ⟨⟨hus, hms, hss⟩, hrem, ⟨ns, hns⟩, ⟨evs, hevs⟩⟩ := hfr
      have hus' : db'.users = st.1.users := hus
      have hms' : db'.meetings = st.1.meetings := hms
      have hss' : db'.settings = st.1.settings := hss
      have hrem' : db'.reminders = st.1.reminders := hrem
      have hns' : db'.notifications = st.1.notifications ++ ns := hns
      have hevs' : log' = (st.2 ++ [Event.reminderStart r.id]) ++ evs := hevs
      rw [jobPR_error fault now st r m db' log' hm hfold]
      exact ⟨⟨hus', hms', hss'⟩, ⟨ns, hns'⟩,
        ⟨evs ++ [Event.reminderError r.id], by rw [hevs']; simp⟩,
        Or.inl hrem'⟩

/-! ## C1: marking a processed reminder -/

theorem markRow_id (rid : Nat) (ts : Int) (x : Reminder) :
    (markRow rid ts x).id = x.id := by
  simp only [markRow]
  split <;> rfl

theorem markRow_ne (rid : Nat) (ts : Int) (x : Reminder)
    (h : (x.id == rid) = false) : markRow rid ts x = x := by
  simp [markRow, h]

theorem markRow_mark_self (rid : Nat) (ts : Int) (x : Reminder) :
    markRow rid ts (markRow rid ts x) = markRow rid ts x := by
  by_cases h : (x.id == rid) = true
  · simp [markRow, h]
  · simp [markRow, h]

/-- Looking a row up by id commutes with the row update, because the update
preserves ids. -/
theorem findRow_map_mark (l : List Reminder) (rid i : Nat) (ts : Int) :
    (l.map (markRow rid ts)).find? (fun x => x.id == i)
      = (l.find? (fun x => x.id == i)).map (markRow rid ts) := by
  have hp : ((fun x : Reminder => x.id == i) ∘ markRow rid ts)
      = (fun x : Reminder => x.id == i) := by
    funext x
    simp [Function.comp, markRow_id]
  rw [List.find?_map, hp]

/-- With primary-key-unique ids, looking up a stored row by its own id finds
it. -/
theorem find?_id_of_nodup (l : List Reminder)
    (hnd : (l.map (fun x => x.id)).Nodup) (r : Reminder) (hr : r ∈ l) :
    l.find? (fun x => x.id == r.id) = some r := by
  induction l with
  | nil => cases hr
  | cons a l ih =>
    rcases List.mem_cons.mp hr with heq | hmem
    · subst heq
      simp
    · have hcons : a.id ∉ l.map (fun x => x.id) ∧
          (l.map (fun x => x.id)).Nodup := by
        rw [List.map_cons, List.nodup_cons] at hnd
        exact hnd
      have hne : a.id ≠ r.id := by
        intro hcontra
        exact hcons.1 (hcontra ▸ List.mem_map_of_mem (fun x => x.id) hmem)
      rw [List.find?_cons_of_neg _ (by simpa using hne)]
      exact ih hcons.2 hmem

/-- The fold over a throwing-capable participant loop succeeds when every
step succeeds. -/
theorem foldE_ok_of_steps {α σ : Type} (f : σ → α → Except σ σ) :
    ∀ (l : List α), (∀ s a, a ∈ l → ∃ s', f s a = Except.ok s') →
    ∀ s : σ, ∃ s', foldE f s l = Except.ok s' := by
  intro l
  induction l with
  | nil => intro _ s; exact ⟨s, rfl⟩
  | cons a l ih =>
    intro hall s
    obtain ⟨s1, hs1⟩ := hall s a (List.mem_cons_self a l)
    obtain ⟨s', hs'⟩ := ih (fun s b hb => hall s b (List.mem_cons_of_mem a hb)) s1
    refine ⟨s', ?_⟩
    show (match f s a with
      | Except.ok s' => foldE f s' l
      | Except.error s' => Except.error s') = Except.ok s'
    rw [hs1]
    exact hs'

/-- A participant iteration succeeds when that participant's in-app write
does not throw. -/
theorem jobProcessParticipant_ok (fault : Fault) (m : Meeting) (r : Reminder)
    (st : St) (p : Participant)
    (hp : ∀ uid, p.userId = some uid → fault.inAppThrows uid = false) :
    ∃ st', jobProcessParticipant fault m r st p = Except.ok st' := by
  cases hpu : p.userId with
  | none => exact ⟨st, jobPP_none fault m r st p hpu⟩
  | some uid =>
    cases hu : findUser st.1 uid with
    | none => exact ⟨st, jobPP_noUser fault m r st p uid hpu hu⟩
    | some user =>
      have hth : fault.inAppThrows uid = false := hp uid hpu
      by_cases hin : inAppAllowed (findSettings st.1 uid) = true
      · exact ⟨_, jobPP_ok_inapp fault m r st p uid user hpu hu hin hth⟩
      · exact ⟨_, jobPP_ok_noinapp fault m r st p uid user hpu hu
          (by simpa using hin)⟩

/-- Once a reminder row is marked, the rest of the batch leaves it marked. -/
theorem foldl_job_keeps_marked (fault : Fault) (now : Int) :
    ∀ (batch : List Reminder) (st : St) (i : Nat) (row : Reminder),
      st.1.reminders.find? (fun x => x.id == i) = some row →
      markRow i now row = row →
      (batch.foldl (jobProcessReminder fault now) st).1.reminders.find?
        (fun x => x.id == i) = some row := by
  intro batch
  induction batch with
  | nil => intro st i row h _; exact h
  | cons r0 rest ih =>
    intro st i row h hstable
    have hid : row.id = i := by simpa using List.find?_some h
    simp only [List.foldl_cons]
    apply ih _ i row _ hstable
    rcases (jobProcessReminder_core fault now st r0).2.2.2 with hsame | hmark
    · rw [hsame]; exact h
    · rw [hmark, findRow_map_mark, h]
      by_cases hr0 : (row.id == r0.id) = true
      · have hr0' : r0.id = i := by
          have h1 : row.id = r0.id := by simpa using hr0
          rw [← h1, hid]
        simp only [Option.map]
        rw [hr0', hstable]
      · simp only [Option.map]
        rw [markRow_ne r0.id now row (by simpa using hr0)]

/-- Marking lemma for the batch fold: a batch member whose meeting exists and
whose participants raise no in-app fault ends up marked. -/
theorem foldl_job_marks (fault : Fault) (now : Int) :
    ∀ (batch : List Reminder) (st : St) (r : Reminder),
      r ∈ batch →
      (∃ m, findMeeting st.1 r.meetingId = some m ∧
        (∀ p ∈ m.participants, ∀ uid, p.userId = some uid →
          fault.inAppThrows uid = false)) →
      (st.1.reminders.find? (fun x => x.id == r.id) = some r ∨
       st.1.reminders.find? (fun x => x.id == r.id) =
         some (markRow r.id now r)) →
      (batch.foldl (jobProcessReminder fault now) st).1.reminders.find?
        (fun x => x.id == r.id) = some (markRow r.id now r) := by
  intro batch
  induction batch with
  | nil =>
    intro st r hmem
    exact absurd hmem (List.not_mem_nil r)
  | cons r0 rest ih =>
    intro st r hmem hmf hfind
    obtain ⟨m, hmeet, hff⟩ := hmf
    simp only [List.foldl_cons]
    rcases List.mem_cons.mp hmem with heq | hmem'
    · subst heq
      obtain ⟨⟨db', log'⟩, hfold⟩ :=
        foldE_ok_of_steps (jobProcessParticipant fault m r) m.participants
          (fun s p hp => jobProcessParticipant_ok fault m r s p
            (fun uid huid => hff p hp uid huid))
          (st.1, st.2 ++ [Event.reminderStart r.id])
      have hfr := foldE_frame_out (jobProcessParticipant fault m r)
        (jobProcessParticipant_frame fault m r)
        (st.1, st.2 ++ [Event.reminderStart r.id]) m.participants
      rw [hfold] at hfr
      simp only [outSt] at hfr
      have hrem : db'.reminders = st.1.reminders := hfr.2.1
      have hstep := jobPR_ok fault now st r m db' log' hmeet hfold
      apply foldl_job_keeps_marked fault now rest _ r.id (markRow r.id now r)
      · rw [hstep]
        show (db'.reminders.map (markRow r.id now)).find?
          (fun x => x.id == r.id) = some (markRow r.id now r)
        rw [hrem, findRow_map_mark]
        rcases hfind with hcase | hcase
        · rw [hcase]; rfl
        · rw [hcase]
          simp only [Option.map]
          rw [markRow_mark_self]
      · exact markRow_mark_self r.id now r
    · apply ih _ r hmem'
      · have hc := (jobProcessReminder_core fault now st r0).1
        exact ⟨m, by rw [findMeeting_congr hc.2.1]; exact hmeet, hff⟩
      · rcases (jobProcessReminder_core fault now st r0).2.2.2 with
          hsame | hmark
        · rw [hsame]; exact hfind
        · rw [hmark, findRow_map_mark]
          rcases hfind with hcase | hcase
          · rw [hcase]
            simp only [Option.map]
            by_cases hid0 : (r.id == r0.id) = true
            · right
              have h1 : r.id = r0.id := by simpa using hid0
              rw [← h1]
            · left
              rw [markRow_ne r0.id now r (by simpa using hid0)]
          · rw [hcase]
            simp only [Option.map]
            right
            by_cases hid0 : ((markRow r.id now r).id == r0.id) = true
            · have h1 : r0.id = r.id := by
                have hmid := markRow_id r.id now r
                have h2 : (markRow r.id now r).id = r0.id := by simpa using hid0
                rw [hmid] at h2
                exact h2.symm
              rw [h1, markRow_mark_self]
            · rw [markRow_ne r0.id now _ (by simpa using hid0)]

/-- **C1, counterexample.**  The claim says the reminder is marked
(`sentAt` non-null, all flags true) even when the in-app writer throws.  On
the code, the in-app write is not inside the per-channel `try`/`catch`: its
throw is caught by the per-reminder handler, which skips the marking update.
With every in-app write throwing, the due reminder of `exDB` is selected and
processed (`reminderStart`/`reminderError` logged) but afterwards still has
`sentAt = null` and all flags false. -/
theorem claim1_counterexample :
    exReminder ∈ selectReminders exDB 100000 ∧
    Event.reminderStart 5 ∈ (processReminders inAppFault exDB 100000).2 ∧
    Event.reminderError 5 ∈ (processReminders inAppFault exDB 100000).2 ∧
    (processReminders inAppFault exDB 100000).1.reminders.find?
      (fun x => x.id == 5) = some exReminder := by
  decide

/-- **C1, amended.**  For every reminder of the selected batch whose
participants raise no in-app write fault (email and push senders may still
throw arbitrarily), the dispatch loop marks that reminder: afterwards its
row has `sentAt = now` and `emailSent`, `pushSent`, `inAppCreated` all true.
If the in-app writer throws for some participant, the per-reminder handler
catches the exception and the reminder is left unmarked (see the
counterexample). -/
theorem claim1_dispatch_marks_reminder (fault : Fault) (db : DB) (now : Int)
    (r : Reminder) (hr : r ∈ selectReminders db now)
    (hff : NoInAppFaultFor fault db r)
    (hnd : (db.reminders.map (fun x => x.id)).Nodup) :
    (processReminders fault db now).1.reminders.find? (fun x => x.id == r.id)
      = some { r with sentAt := some now, emailSent := true,
                      pushSent := true, inAppCreated := true } := by
  have hsound := selectReminders_sound hr
  have hdue := hsound.2
  have hmex : ∃ m, findMeeting db r.meetingId = some m := by
    simp only [reminderDue, Bool.and_eq_true] at hdue
    rcases hdue with ⟨_, h3⟩
    cases hm : findMeeting db r.meetingId with
    | none => rw [hm] at h3; exact absurd h3 (by simp)
    | some m => exact ⟨m, rfl⟩
  obtain ⟨m, hm⟩ := hmex
  have hfind : db.reminders.find? (fun x => x.id == r.id) = some r :=
    find?_id_of_nodup db.reminders hnd r hsound.1
  have hmain := foldl_job_marks fault now (selectReminders db now) (db, []) r
    hr ⟨m, hm, hff m hm⟩ (Or.inl hfind)
  have hmark : markRow r.id now r =
      { r with sentAt := some now, emailSent := true, pushSent := true,
               inAppCreated := true } := by
    simp [markRow]
  rw [← hmark]
  exact hmain

/-- Witness for C1 at a concrete store with no faults: the due reminder of
`exDB` is selected and afterwards fully marked. -/
theorem claim1_witness :
    exReminder ∈ selectReminders exDB 100000 ∧
    (processReminders noFault exDB 100000).1.reminders.find?
        (fun x => x.id == exReminder.id) =
      some { exReminder with sentAt := some 100000, emailSent := true,
                             pushSent := true, inAppCreated := true } :=
  ⟨by decide, claim1_dispatch_marks_reminder noFault exDB 100000 exReminder
    (by decide) (fun _ _ _ _ _ _ => rfl) (by decide)⟩

/-! ## Fault-free closed forms of the participant loop -/

theorem foldE_cons {α σ : Type} (f : σ → α → Except σ σ) (s : σ) (a : α)
    (l : List α) :
    foldE f s (a :: l) = match f s a with
      | Except.ok s' => foldE f s' l
      | Except.error s' => Except.error s' := rfl

theorem participantNotifsNF_notifUpdate (db : DB) (ns : List Notification)
    (p : Participant) (mid : Nat) (title : String) (minutes : Nat) :
    participantNotifsNF { db with notifications := ns } p mid title minutes
      = participantNotifsNF db p mid title minutes := rfl

theorem participantEventsNF_notifUpdate (fault : Fault) (db : DB)
    (ns : List Notification) :
    participantEventsNF fault { db with notifications := ns }
      = participantEventsNF fault db := by
  funext p
  rfl

/-- Exact effect of one participant iteration when that participant's
in-app write does not throw. -/
theorem jobProcessParticipant_exact (fault : Fault) (m : Meeting)
    (r : Reminder) (st : St) (p : Participant)
    (hnf : ∀ uid, p.userId = some uid → fault.inAppThrows uid = false) :
    jobProcessParticipant fault m r st p = Except.ok
      ({ st.1 with notifications := st.1.notifications ++
          participantNotifsNF st.1 p m.id m.title r.minutesBefore },
        st.2 ++ participantEventsNF fault st.1 p) := by
  cases hp : p.userId with
  | none =>
    rw [jobPP_none fault m r st p hp]
    simp [participantNotifsNF, participantEventsNF, hp]
  | some uid =>
    cases hu : findUser st.1 uid with
    | none =>
      rw [jobPP_noUser fault m r st p uid hp hu]
      simp [participantNotifsNF, participantEventsNF, hp, hu]
    | some user =>
      have hth := hnf uid hp
      by_cases hin : inAppAllowed (findSettings st.1 uid) = true
      · rw [jobPP_ok_inapp fault m r st p uid user hp hu hin hth]
        simp [participantNotifsNF, hp, hu, hin]
      · rw [jobPP_ok_noinapp fault m r st p uid user hp hu
          (by simpa using hin)]
        simp [participantNotifsNF, hp, hu,
          (by simpa using hin : inAppAllowed (findSettings st.1 uid) = false)]

/-- Exact effect of the whole participant loop when no in-app write
throws: notifications and events are the concatenation of the
per-participant closed forms, evaluated over the initial store. -/
theorem foldE_participants_exact (fault : Fault) (m : Meeting) (r : Reminder)
    (hnf : ∀ u, fault.inAppThrows u = false) :
    ∀ (ps : List Participant) (st : St),
      foldE (jobProcessParticipant fault m r) st ps = Except.ok
        ({ st.1 with notifications := st.1.notifications ++
            (ps.map (fun p => participantNotifsNF st.1 p m.id m.title
              r.minutesBefore)).flatten },
          st.2 ++ (ps.map (participantEventsNF fault st.1)).flatten) := by
  intro ps
  induction ps with
  | nil =>
    intro st
    show Except.ok st = _
    simp
  | cons p ps ih =>
    intro st
    rw [foldE_cons,
      jobProcessParticipant_exact fault m r st p (fun uid _ => hnf uid)]
    show foldE (jobProcessParticipant fault m r)
      ({ st.1 with notifications := st.1.notifications ++
          participantNotifsNF st.1 p m.id m.title r.minutesBefore },
        st.2 ++ participantEventsNF fault st.1 p) ps = _
    rw [ih ({ st.1 with notifications := st.1.notifications ++
        participantNotifsNF st.1 p m.id m.title r.minutesBefore },
      st.2 ++ participantEventsNF fault st.1 p)]
    simp [participantNotifsNF_notifUpdate, participantEventsNF_notifUpdate,
      List.append_assoc]

/-- Exact effect of one per-reminder iteration under a fault-free in-app
writer: participants' notifications are written, their events logged, and
the reminder marked. -/
theorem jobProcessReminder_exact (fault : Fault) (now : Int) (st : St)
    (r : Reminder) (m : Meeting)
    (hm : findMeeting st.1 r.meetingId = some m)
    (hnf : ∀ u, fault.inAppThrows u = false) :
    jobProcessReminder fault now st r =
      (markReminderSent
        { st.1 with notifications := st.1.notifications ++
            (m.participants.map (fun p => participantNotifsNF st.1 p m.id
              m.title r.minutesBefore)).flatten } r.id now,
        (st.2 ++ [Event.reminderStart r.id]) ++
          (m.participants.map (participantEventsNF fault st.1)).flatten) := by
  have hfold := foldE_participants_exact fault m r hnf m.participants
    (st.1, st.2 ++ [Event.reminderStart r.id])
  exact jobPR_ok fault now st r m _ _ hm hfold

/-! ## Counting channel invocations -/

theorem countEmail_append (l1 l2 : List Event) (uid : Nat) :
    countEmail (l1 ++ l2) uid = countEmail l1 uid + countEmail l2 uid := by
  simp [countEmail, List.filter_append]

theorem countPush_append (l1 l2 : List Event) (uid : Nat) :
    countPush (l1 ++ l2) uid = countPush l1 uid + countPush l2 uid := by
  simp [countPush, List.filter_append]

theorem countNotif_append (l1 l2 : List Notification) (uid : Nat) :
    countNotif (l1 ++ l2) uid = countNotif l1 uid + countNotif l2 uid := by
  simp [countNotif, List.filter_append]

theorem countEmail_svcSendExternal (fault : Fault) (db : DB) (uid : Nat)
    (user : User) (hu : findUser db uid = some user) :
    countEmail (svcSendExternal fault db uid) uid =
      if emailAllowed (findSettings db uid) then 1 else 0 := by
  simp only [svcSendExternal, hu]
  split_ifs <;> simp_all [countEmail, List.filter_append]

theorem countPush_svcSendExternal (fault : Fault) (db : DB) (uid : Nat)
    (user : User) (hu : findUser db uid = some user) :
    countPush (svcSendExternal fault db uid) uid =
      if pushAllowed (findSettings db uid) then 1 else 0 := by
  simp only [svcSendExternal, hu]
  split_ifs <;> simp_all [countPush, List.filter_append]

theorem countEmail_loopEvents (fault : Fault) (s : Option UserSettings)
    (uid : Nat) :
    countEmail (loopEmailEvents fault s uid ++ loopPushEvents fault s uid)
        uid = if emailAllowed s then 1 else 0 := by
  simp only [loopEmailEvents, loopPushEvents]
  split_ifs <;> simp_all [countEmail, List.filter_append]

theorem countPush_loopEvents (fault : Fault) (s : Option UserSettings)
    (uid : Nat) :
    countPush (loopEmailEvents fault s uid ++ loopPushEvents fault s uid)
        uid = if pushAllowed s then 1 else 0 := by
  simp only [loopEmailEvents, loopPushEvents]
  split_ifs <;> simp_all [countPush, List.filter_append]

/-- Per-participant email-invocation count for that participant's own user:
two calls (one via the notification service, one direct) when email is
enabled, none otherwise. -/
theorem countEmail_pEventsNF_self (fault : Fault) (db : DB) (q : Participant)
    (uid : Nat) (hq : q.userId = some uid) (user : User)
    (hu : findUser db uid = some user)
    (hin : inAppAllowed (findSettings db uid) = true) :
    countEmail (participantEventsNF fault db q) uid =
      if emailAllowed (findSettings db uid) then 2 else 0 := by
  simp only [participantEventsNF, hq, hu, hin, if_true]
  rw [countEmail_append, countEmail_svcSendExternal fault db uid user hu,
    countEmail_loopEvents]
  split_ifs <;> rfl

theorem countPush_pEventsNF_self (fault : Fault) (db : DB) (q : Participant)
    (uid : Nat) (hq : q.userId = some uid) (user : User)
    (hu : findUser db uid = some user)
    (hin : inAppAllowed (findSettings db uid) = true) :
    countPush (participantEventsNF fault db q) uid =
      if pushAllowed (findSettings db uid) then 2 else 0 := by
  simp only [participantEventsNF, hq, hu, hin, if_true]
  rw [countPush_append, countPush_svcSendExternal fault db uid user hu,
    countPush_loopEvents]
  split_ifs <;> rfl

theorem countEmail_svcSendExternal_ne (fault : Fault) (db : DB)
    (tgt uid : Nat) (h : tgt ≠ uid) :
    countEmail (svcSendExternal fault db tgt) uid = 0 := by
  simp only [svcSendExternal]
  cases findUser db tgt with
  | none => rfl
  | some u => split_ifs <;> simp_all [countEmail, List.filter_append]

theorem countPush_svcSendExternal_ne (fault : Fault) (db : DB)
    (tgt uid : Nat) (h : tgt ≠ uid) :
    countPush (svcSendExternal fault db tgt) uid = 0 := by
  simp only [svcSendExternal]
  cases findUser db tgt with
  | none => rfl
  | some u => split_ifs <;> simp_all [countPush, List.filter_append]

/-- Events of another participant never count towards this user. -/
theorem countEmail_pEventsNF_other (fault : Fault) (db : DB)
    (q : Participant) (uid : Nat) (hq : q.userId ≠ some uid) :
    countEmail (participantEventsNF fault db q) uid = 0 := by
  cases hqu : q.userId with
  | none => simp [participantEventsNF, hqu, countEmail]
  | some tgt =>
    have hne : tgt ≠ uid := fun hcontra => hq (by rw [hqu, hcontra])
    simp only [participantEventsNF, hqu]
    cases findUser db tgt with
    | none => rfl
    | some u =>
      rw [countEmail_append, countEmail_append]
      have h1 : countEmail (if inAppAllowed (findSettings db tgt) then
          svcSendExternal fault db tgt else []) uid = 0 := by
        split_ifs
        · exact countEmail_svcSendExternal_ne fault db tgt uid hne
        · rfl
      have h2 : countEmail (loopEmailEvents fault (findSettings db tgt) tgt)
          uid = 0 := by
        simp only [loopEmailEvents]
        split_ifs <;> simp_all [countEmail]
      have h3 : countEmail (loopPushEvents fault (findSettings db tgt) tgt)
          uid = 0 := by
        simp only [loopPushEvents]
        split_ifs <;> simp_all [countEmail]
      rw [h1, h2, h3]

theorem countPush_pEventsNF_other (fault : Fault) (db : DB)
    (q : Participant) (uid : Nat) (hq : q.userId ≠ some uid) :
    countPush (participantEventsNF fault db q) uid = 0 := by
  cases hqu : q.userId with
  | none => simp [participantEventsNF, hqu, countPush]
  | some tgt =>
    have hne : tgt ≠ uid := fun hcontra => hq (by rw [hqu, hcontra])
    simp only [participantEventsNF, hqu]
    cases findUser db tgt with
    | none => rfl
    | some u =>
      rw [countPush_append, countPush_append]
      have h1 : countPush (if inAppAllowed (findSettings db tgt) then
          svcSendExternal fault db tgt else []) uid = 0 := by
        split_ifs
        · exact countPush_svcSendExternal_ne fault db tgt uid hne
        · rfl
      have h2 : countPush (loopEmailEvents fault (findSettings db tgt) tgt)
          uid = 0 := by
        simp only [loopEmailEvents]
        split_ifs <;> simp_all [countPush]
      have h3 : countPush (loopPushEvents fault (findSettings db tgt) tgt)
          uid = 0 := by
        simp only [loopPushEvents]
        split_ifs <;> simp_all [countPush]
      rw [h1, h2, h3]

theorem countEmail_flatten_zero (fault : Fault) (db : DB) (uid : Nat) :
    ∀ ps : List Participant,
      (ps.filter (fun p => p.userId == some uid)).length = 0 →
      countEmail ((ps.map (participantEventsNF fault db)).flatten) uid = 0 := by
  intro ps
  induction ps with
  | nil => intro _; rfl
  | cons q ps ih =>
    intro hlen
    rw [List.map_cons, List.flatten_cons, countEmail_append]
    rw [List.filter_cons] at hlen
    by_cases hq : (q.userId == some uid) = true
    · rw [if_pos hq] at hlen
      simp at hlen
    · rw [if_neg hq] at hlen
      rw [countEmail_pEventsNF_other fault db q uid (by simpa using hq),
        ih hlen]

theorem countPush_flatten_zero (fault : Fault) (db : DB) (uid : Nat) :
    ∀ ps : List Participant,
      (ps.filter (fun p => p.userId == some uid)).length = 0 →
      countPush ((ps.map (participantEventsNF fault db)).flatten) uid = 0 := by
  intro ps
  induction ps with
  | nil => intro _; rfl
  | cons q ps ih =>
    intro hlen
    rw [List.map_cons, List.flatten_cons, countPush_append]
    rw [List.filter_cons] at hlen
    by_cases hq : (q.userId == some uid) = true
    · rw [if_pos hq] at hlen
      simp at hlen
    · rw [if_neg hq] at hlen
      rw [countPush_pEventsNF_other fault db q uid (by simpa using hq),
        ih hlen]

/-- Email-invocation count over a participant list containing this user
exactly once. -/
theorem countEmail_flatten_single (fault : Fault) (db : DB) (uid : Nat)
    (user : User) (hu : findUser db uid = some user)
    (hin : inAppAllowed (findSettings db uid) = true) :
    ∀ ps : List Participant,
      (ps.filter (fun p => p.userId == some uid)).length = 1 →
      countEmail ((ps.map (participantEventsNF fault db)).flatten) uid =
        if emailAllowed (findSettings db uid) then 2 else 0 := by
  intro ps
  induction ps with
  | nil => intro hlen; simp at hlen
  | cons q ps ih =>
    intro hlen
    rw [List.map_cons, List.flatten_cons, countEmail_append]
    rw [List.filter_cons] at hlen
    by_cases hq : (q.userId == some uid) = true
    · rw [if_pos hq] at hlen
      have hlen0 : (ps.filter (fun p => p.userId == some uid)).length = 0 := by
        simp only [List.length_cons] at hlen
        omega
      rw [countEmail_pEventsNF_self fault db q uid (by simpa using hq) user
        hu hin, countEmail_flatten_zero fault db uid ps hlen0]
      simp
    · rw [if_neg hq] at hlen
      rw [countEmail_pEventsNF_other fault db q uid (by simpa using hq),
        ih hlen]
      simp

theorem countPush_flatten_single (fault : Fault) (db : DB) (uid : Nat)
    (user : User) (hu : findUser db uid = some user)
    (hin : inAppAllowed (findSettings db uid) = true) :
    ∀ ps : List Participant,
      (ps.filter (fun p => p.userId == some uid)).length = 1 →
      countPush ((ps.map (participantEventsNF fault db)).flatten) uid =
        if pushAllowed (findSettings db uid) then 2 else 0 := by
  intro ps
  induction ps with
  | nil => intro hlen; simp at hlen
  | cons q ps ih =>
    intro hlen
    rw [List.map_cons, List.flatten_cons, countPush_append]
    rw [List.filter_cons] at hlen
    by_cases hq : (q.userId == some uid) = true
    · rw [if_pos hq] at hlen
      have hlen0 : (ps.filter (fun p => p.userId == some uid)).length = 0 := by
        simp only [List.length_cons] at hlen
        omega
      rw [countPush_pEventsNF_self fault db q uid (by simpa using hq) user
        hu hin, countPush_flatten_zero fault db uid ps hlen0]
      simp
    · rw [if_neg hq] at hlen
      rw [countPush_pEventsNF_other fault db q uid (by simpa using hq),
        ih hlen]
      simp

/-! ## C6: per-reminder exceptions never abort the tick -/

theorem svcSendExternal_no_start (fault : Fault) (db : DB) (uid : Nat) :
    (svcSendExternal fault db uid).filter isReminderStart = [] := by
  simp only [svcSendExternal]
  cases findUser db uid with
  | none => rfl
  | some u =>
    simp only [List.filter_append]
    split_ifs <;> simp [isReminderStart]

theorem loopEmailEvents_no_start (fault : Fault) (s : Option UserSettings)
    (uid : Nat) : (loopEmailEvents fault s uid).filter isReminderStart = [] := by
  simp only [loopEmailEvents]
  split_ifs <;> simp [isReminderStart]

theorem loopPushEvents_no_start (fault : Fault) (s : Option UserSettings)
    (uid : Nat) : (loopPushEvents fault s uid).filter isReminderStart = [] := by
  simp only [loopPushEvents]
  split_ifs <;> simp [isReminderStart]

theorem participantEventsNF_no_start (fault : Fault) (db : DB)
    (p : Participant) :
    (participantEventsNF fault db p).filter isReminderStart = [] := by
  cases hp : p.userId with
  | none => simp [participantEventsNF, hp]
  | some uid =>
    cases hu : findUser db uid with
    | none => simp [participantEventsNF, hp, hu]
    | some user =>
      simp only [participantEventsNF, hp, hu, List.filter_append,
        loopEmailEvents_no_start, loopPushEvents_no_start, List.append_nil]
      split_ifs with h
      · exact svcSendExternal_no_start fault db uid
      · rfl

/-- A participant iteration adds no `reminderStart` marker to the trace,
throw or no throw. -/
theorem jobProcessParticipant_no_start (fault : Fault) (m : Meeting)
    (r : Reminder) (st : St) (p : Participant) :
    ((outSt (jobProcessParticipant fault m r st p)).2).filter isReminderStart
      = st.2.filter isReminderStart := by
  cases hp : p.userId with
  | none =>
    rw [jobPP_none fault m r st p hp]
    exact rfl
  | some uid =>
    cases hu : findUser st.1 uid with
    | none =>
      rw [jobPP_noUser fault m r st p uid hp hu]
      exact rfl
    | some user =>
      by_cases hin : inAppAllowed (findSettings st.1 uid) = true
      · by_cases hth : fault.inAppThrows uid = true
        · rw [jobPP_throw fault m r st p uid user hp hu hin hth]
          exact rfl
        · rw [jobPP_ok_inapp fault m r st p uid user hp hu hin
            (by simpa using hth)]
          show ((st.2 ++ participantEventsNF fault st.1 p).filter
            isReminderStart) = _
          rw [List.filter_append, participantEventsNF_no_start,
            List.append_nil]
      · rw [jobPP_ok_noinapp fault m r st p uid user hp hu
          (by simpa using hin)]
        show ((st.2 ++ participantEventsNF fault st.1 p).filter
          isReminderStart) = _
        rw [List.filter_append, participantEventsNF_no_start,
          List.append_nil]

/-- Each per-reminder iteration appends exactly one `reminderStart` marker —
its own — to the trace, throw or no throw. -/
theorem jobProcessReminder_start_filter (fault : Fault) (now : Int) (st : St)
    (r : Reminder) :
    (jobProcessReminder fault now st r).2.filter isReminderStart
      = st.2.filter isReminderStart ++ [Event.reminderStart r.id] := by
  cases hm : findMeeting st.1 r.meetingId with
  | none =>
    rw [jobPR_noMeeting fault now st r hm]
    simp [isReminderStart]
  | some m =>
    have hns := foldE_out_rel
      (fun s s' : St =>
        s'.2.filter isReminderStart = s.2.filter isReminderStart)
      (fun s => rfl) (fun a b c h1 h2 => h2.trans h1)
      (jobProcessParticipant fault m r)
      (jobProcessParticipant_no_start fault m r) m.participants
      (st.1, st.2 ++ [Event.reminderStart r.id])
    cases hf : foldE (jobProcessParticipant fault m r)
        (st.1, st.2 ++ [Event.reminderStart r.id]) m.participants with
    | ok q =>
      obtain ⟨db', log'⟩ := q
      rw [hf] at hns
      simp only [outSt] at hns
      have hns' : log'.filter isReminderStart =
          (st.2 ++ [Event.reminderStart r.id]).filter isReminderStart := hns
      rw [jobPR_ok fault now st r m db' log' hm hf]
      show log'.filter isReminderStart = _
      rw [hns', List.filter_append]
      simp [isReminderStart]
    | error q =>
      obtain ⟨db', log'⟩ := q
      rw [hf] at hns
      simp only [outSt] at hns
      have hns' : log'.filter isReminderStart =
          (st.2 ++ [Event.reminderStart r.id]).filter isReminderStart := hns
      rw [jobPR_error fault now st r m db' log' hm hf]
      show (log' ++ [Event.reminderError r.id]).filter isReminderStart = _
      rw [List.filter_append, hns', List.filter_append]
      simp [isReminderStart]

/-- **C6.**  An exception while processing one reminder of the batch never
aborts the tick: the `reminderStart` markers of the final trace are exactly
one per selected reminder, in selection order, whatever the fault oracle —
so every reminder of the batch, including every one after a throwing
reminder, is still attempted (and, by `processReminders` being a total
function, the tick always runs to completion). -/
theorem claim6_batch_isolates_reminder_failures (fault : Fault) (db : DB)
    (now : Int) :
    (processReminders fault db now).2.filter isReminderStart
      = (selectReminders db now).map (fun r => Event.reminderStart r.id) ∧
    (∀ r ∈ selectReminders db now,
      Event.reminderStart r.id ∈ (processReminders fault db now).2) := by
  have hgen : ∀ (batch : List Reminder) (st : St),
      (batch.foldl (jobProcessReminder fault now) st).2.filter isReminderStart
        = st.2.filter isReminderStart ++
          batch.map (fun r => Event.reminderStart r.id) := by
    intro batch
    induction batch with
    | nil => intro st; simp
    | cons r rest ih =>
      intro st
      simp only [List.foldl_cons, List.map_cons]
      rw [ih, jobProcessReminder_start_filter]
      simp
  have hmain : (processReminders fault db now).2.filter isReminderStart
      = (selectReminders db now).map (fun r => Event.reminderStart r.id) := by
    show ((selectReminders db now).foldl (jobProcessReminder fault now)
      (db, [])).2.filter isReminderStart = _
    rw [hgen (selectReminders db now) (db, [])]
    rfl
  refine ⟨hmain, ?_⟩
  intro r hr
  have hmem : Event.reminderStart r.id ∈
      (processReminders fault db now).2.filter isReminderStart := by
    rw [hmain]
    exact List.mem_map_of_mem _ hr
  exact (List.mem_filter.mp hmem).1

/-! ## C3: double send of email and push per user -/

/-- **C3, counterexample.**  The claim says every user with the in-app
channel enabled gets two email-sender and two push-sender invocations per
dispatched reminder.  For user 1 of `exDBEmailOff`, whose settings enable
in-app but disable email and push, the code invokes the email sender zero
times and the push sender zero times — the double send only happens on a
channel that is itself enabled. -/
theorem claim3_counterexample :
    inAppAllowed (findSettings exDBEmailOff 1) = true ∧
    countEmail (processReminders noFault exDBEmailOff 100000).2 1 = 0 ∧
    countPush (processReminders noFault exDBEmailOff 100000).2 1 = 0 := by
  decide

/-- **C3, amended.**  For every user with a linked participant row
(appearing once among the meeting's participants) whose in-app channel is
enabled (or who has no settings record), dispatching one due reminder to
that user invokes the email sender twice if the user's email channel is
enabled and zero times otherwise, and likewise the push sender twice if the
push channel is enabled and zero times otherwise — once directly from the
dispatch loop and once via the notification service's
`createMeetingReminder`, which itself sends email and push through
`sendExternalNotifications`. -/
theorem claim3_enabled_channels_fire_twice (fault : Fault) (db : DB)
    (now : Int) (r : Reminder) (m : Meeting) (uid : Nat) (user : User)
    (hsel : selectReminders db now = [r])
    (hm : findMeeting db r.meetingId = some m)
    (hnf : ∀ u, fault.inAppThrows u = false)
    (hu : findUser db uid = some user)
    (hone : (m.participants.filter (fun p => p.userId == some uid)).length = 1)
    (hin : inAppAllowed (findSettings db uid) = true) :
    countEmail (processReminders fault db now).2 uid =
      (if emailAllowed (findSettings db uid) then 2 else 0) ∧
    countPush (processReminders fault db now).2 uid =
      (if pushAllowed (findSettings db uid) then 2 else 0) := by
  have hrun : processReminders fault db now =
      jobProcessReminder fault now (db, []) r := by
    show (selectReminders db now).foldl (jobProcessReminder fault now)
      (db, []) = _
    rw [hsel]
    rfl
  rw [hrun, jobProcessReminder_exact fault now (db, []) r m hm hnf]
  have hlog : ((([] : List Event) ++ [Event.reminderStart r.id]) ++
      (m.participants.map (participantEventsNF fault db)).flatten)
      = Event.reminderStart r.id ::
        (m.participants.map (participantEventsNF fault db)).flatten := by
    simp
  constructor
  · show countEmail ((([] : List Event) ++ [Event.reminderStart r.id]) ++
      (m.participants.map (participantEventsNF fault db)).flatten) uid = _
    rw [countEmail_append,
      countEmail_flatten_single fault db uid user hu hin m.participants hone]
    simp [countEmail]
  · show countPush ((([] : List Event) ++ [Event.reminderStart r.id]) ++
      (m.participants.map (participantEventsNF fault db)).flatten) uid = _
    rw [countPush_append,
      countPush_flatten_single fault db uid user hu hin m.participants hone]
    simp [countPush]

/-- Witness for C3 at a concrete store: user 1 of `exDB` has no settings
row, so both channels are enabled and each sender fires exactly twice. -/
theorem claim3_witness :
    countEmail (processReminders noFault exDB 100000).2 1 =
      (if emailAllowed (findSettings exDB 1) then 2 else 0) ∧
    countPush (processReminders noFault exDB 100000).2 1 =
      (if pushAllowed (findSettings exDB 1) then 2 else 0) :=
  claim3_enabled_channels_fire_twice noFault exDB 100000 exReminder exMeeting
    1 exUser1 (by decide) (by decide) (fun _ => rfl) (by decide) (by decide)
    (by decide)

/-! ## C9: a push-disabled user is never pushed -/

theorem pushCall_mem_svcSendExternal (fault : Fault) (db : DB) (tgt : Nat)
    (src : Src) (u : Nat)
    (h : Event.pushCall src u ∈ svcSendExternal fault db tgt) :
    u = tgt ∧ pushAllowed (findSettings db tgt) = true := by
  cases hu : findUser db tgt with
  | none => simp [svcSendExternal, hu] at h
  | some user =>
    simp only [svcSendExternal, hu] at h
    split_ifs at h <;> simp_all

theorem pushCall_mem_pEventsNF (fault : Fault) (db : DB) (q : Participant)
    (src : Src) (u : Nat)
    (h : Event.pushCall src u ∈ participantEventsNF fault db q) :
    pushAllowed (findSettings db u) = true := by
  cases hq : q.userId with
  | none => simp [participantEventsNF, hq] at h
  | some tgt =>
    cases hu : findUser db tgt with
    | none => simp [participantEventsNF, hq, hu] at h
    | some user =>
      simp only [participantEventsNF, hq, hu] at h
      rcases List.mem_append.mp h with h1 | h1
      · by_cases hin : inAppAllowed (findSettings db tgt) = true
        · rw [if_pos hin] at h1
          obtain ⟨hequ, hp⟩ :=
            pushCall_mem_svcSendExternal fault db tgt src u h1
          rw [hequ]
          exact hp
        · rw [if_neg hin] at h1
          simp at h1
      · rcases List.mem_append.mp h1 with h2 | h2
        · exfalso
          simp only [loopEmailEvents] at h2
          split_ifs at h2 <;> simp at h2
        · simp only [loopPushEvents] at h2
          split_ifs at h2 <;> simp_all

/-- Every push event a participant iteration appends is guarded by that
user's push preference, throw or no throw. -/
theorem jobProcessParticipant_pushGuard (fault : Fault) (m : Meeting)
    (r : Reminder) (st : St) (p : Participant) (src : Src) (u : Nat)
    (h : Event.pushCall src u ∈
      (outSt (jobProcessParticipant fault m r st p)).2) :
    Event.pushCall src u ∈ st.2 ∨
      pushAllowed (findSettings st.1 u) = true := by
  cases hp : p.userId with
  | none =>
    rw [jobPP_none fault m r st p hp] at h
    exact Or.inl h
  | some uid =>
    cases hu : findUser st.1 uid with
    | none =>
      rw [jobPP_noUser fault m r st p uid hp hu] at h
      exact Or.inl h
    | some user =>
      by_cases hin : inAppAllowed (findSettings st.1 uid) = true
      · by_cases hth : fault.inAppThrows uid = true
        · rw [jobPP_throw fault m r st p uid user hp hu hin hth] at h
          exact Or.inl h
        · rw [jobPP_ok_inapp fault m r st p uid user hp hu hin
            (by simpa using hth)] at h
          have h' : Event.pushCall src u ∈
              st.2 ++ participantEventsNF fault st.1 p := h
          rcases List.mem_append.mp h' with h1 | h1
          · exact Or.inl h1
          · exact Or.inr (pushCall_mem_pEventsNF fault st.1 p src u h1)
      · rw [jobPP_ok_noinapp fault m r st p uid user hp hu
          (by simpa using hin)] at h
        have h' : Event.pushCall src u ∈
            st.2 ++ participantEventsNF fault st.1 p := h
        rcases List.mem_append.mp h' with h1 | h1
        · exact Or.inl h1
        · exact Or.inr (pushCall_mem_pEventsNF fault st.1 p src u h1)

/-- Every push event a per-reminder iteration appends is guarded by that
user's push preference. -/
theorem jobProcessReminder_pushGuard (fault : Fault) (now : Int) (st : St)
    (r : Reminder) (src : Src) (u : Nat)
    (h : Event.pushCall src u ∈ (jobProcessReminder fault now st r).2) :
    Event.pushCall src u ∈ st.2 ∨
      pushAllowed (findSettings st.1 u) = true := by
  cases hm : findMeeting st.1 r.meetingId with
  | none =>
    rw [jobPR_noMeeting fault now st r hm] at h
    left
    rcases List.mem_append.mp h with h1 | h1
    · rcases List.mem_append.mp h1 with h2 | h2
      · exact h2
      · simp at h2
    · simp at h1
  | some m =>
    have hrel := foldE_out_rel
      (fun s s' : St => s'.1.settings = s.1.settings ∧
        ∀ src u, Event.pushCall src u ∈ s'.2 →
          Event.pushCall src u ∈ s.2 ∨
            pushAllowed (findSettings s.1 u) = true)
      (fun s => ⟨rfl, fun _ _ hmem => Or.inl hmem⟩)
      (fun a b c h1 h2 => ⟨h2.1.trans h1.1, fun src u hmem => by
        rcases h2.2 src u hmem with hin | hall
        · exact h1.2 src u hin
        · right
          rwa [findSettings_congr h1.1 u] at hall⟩)
      (jobProcessParticipant fault m r)
      (fun s a => ⟨(jobProcessParticipant_frame fault m r s a).1.2.2,
        fun src u hmem =>
          jobProcessParticipant_pushGuard fault m r s a src u hmem⟩)
      m.participants (st.1, st.2 ++ [Event.reminderStart r.id])
    cases hf : foldE (jobProcessParticipant fault m r)
        (st.1, st.2 ++ [Event.reminderStart r.id]) m.participants with
    | ok q =>
      obtain ⟨db', log'⟩ := q
      rw [hf] at hrel
      simp only [outSt] at hrel
      rw [jobPR_ok fault now st r m db' log' hm hf] at h
      have h' : Event.pushCall src u ∈ log' := h
      rcases hrel.2 src u h' with h1 | h1
      · have h2 : Event.pushCall src u ∈
            st.2 ++ [Event.reminderStart r.id] := h1
        rcases List.mem_append.mp h2 with h3 | h3
        · exact Or.inl h3
        · simp at h3
      · exact Or.inr h1
    | error q =>
      obtain ⟨db', log'⟩ := q
      rw [hf] at hrel
      simp only [outSt] at hrel
      rw [jobPR_error fault now st r m db' log' hm hf] at h
      have h' : Event.pushCall src u ∈ log' ++ [Event.reminderError r.id] := h
      have h'' : Event.pushCall src u ∈ log' := by
        rcases List.mem_append.mp h' with h3 | h3
        · exact h3
        · simp at h3
      rcases hrel.2 src u h'' with h1 | h1
      · have h2 : Event.pushCall src u ∈
            st.2 ++ [Event.reminderStart r.id] := h1
        rcases List.mem_append.mp h2 with h3 | h3
        · exact Or.inl h3
        · simp at h3
      · exact Or.inr h1

/-- Every push event of a whole tick is guarded by the recipient's push
preference in the (settings-invariant) store. -/
theorem processReminders_pushGuard (fault : Fault) (db : DB) (now : Int)
    (src : Src) (u : Nat)
    (h : Event.pushCall src u ∈ (processReminders fault db now).2) :
    pushAllowed (findSettings db u) = true := by
  have hgen : ∀ (batch : List Reminder) (st : St),
      st.1.settings = db.settings →
      (∀ src u, Event.pushCall src u ∈ st.2 →
        pushAllowed (findSettings db u) = true) →
      ∀ src u, Event.pushCall src u ∈
          (batch.foldl (jobProcessReminder fault now) st).2 →
        pushAllowed (findSettings db u) = true := by
    intro batch
    induction batch with
    | nil => intro st _ hinv src u hmem; exact hinv src u hmem
    | cons r rest ih =>
      intro st hs hinv src u hmem
      refine ih (jobProcessReminder fault now st r) ?_ ?_ src u hmem
      · exact ((jobProcessReminder_core fault now st r).1.2.2).trans hs
      · intro src' u' hmem'
        rcases jobProcessReminder_pushGuard fault now st r src' u' hmem'
          with hin | hall
        · exact hinv src' u' hin
        · rwa [findSettings_congr hs u'] at hall
  exact hgen (selectReminders db now) (db, []) rfl
    (fun _ _ hmem => absurd hmem (List.not_mem_nil _)) src u h

theorem count_flatten_zero {β : Type} (uid : Nat) (g : Participant → List β)
    (c : List β → Nat) (hadd : ∀ l1 l2, c (l1 ++ l2) = c l1 + c l2)
    (hnil : c [] = 0)
    (hother : ∀ q, q.userId ≠ some uid → c (g q) = 0) :
    ∀ ps : List Participant,
      (ps.filter (fun p => p.userId == some uid)).length = 0 →
      c ((ps.map g).flatten) = 0 := by
  intro ps
  induction ps with
  | nil => intro _; exact hnil
  | cons q ps ih =>
    intro hlen
    rw [List.map_cons, List.flatten_cons, hadd]
    rw [List.filter_cons] at hlen
    by_cases hq : (q.userId == some uid) = true
    · rw [if_pos hq] at hlen
      simp at hlen
    · rw [if_neg hq] at hlen
      rw [hother q (by simpa using hq), ih hlen]

theorem count_flatten_one {β : Type} (uid : Nat) (g : Participant → List β)
    (c : List β → Nat) (k : Nat)
    (hadd : ∀ l1 l2, c (l1 ++ l2) = c l1 + c l2) (hnil : c [] = 0)
    (hself : ∀ q, q.userId = some uid → c (g q) = k)
    (hother : ∀ q, q.userId ≠ some uid → c (g q) = 0) :
    ∀ ps : List Participant,
      (ps.filter (fun p => p.userId == some uid)).length = 1 →
      c ((ps.map g).flatten) = k := by
  intro ps
  induction ps with
  | nil => intro hlen; simp at hlen
  | cons q ps ih =>
    intro hlen
    rw [List.map_cons, List.flatten_cons, hadd]
    rw [List.filter_cons] at hlen
    by_cases hq : (q.userId == some uid) = true
    · rw [if_pos hq] at hlen
      have hlen0 : (ps.filter (fun p => p.userId == some uid)).length = 0 := by
        simp only [List.length_cons] at hlen
        omega
      rw [hself q (by simpa using hq),
        count_flatten_zero uid g c hadd hnil hother ps hlen0]
      simp
    · rw [if_neg hq] at hlen
      rw [hother q (by simpa using hq), ih hlen]
      simp

theorem countEmailLoop_append (l1 l2 : List Event) (uid : Nat) :
    countEmailLoop (l1 ++ l2) uid =
      countEmailLoop l1 uid + countEmailLoop l2 uid := by
  simp [countEmailLoop, List.filter_append]

theorem countEmailLoop_svcSendExternal (fault : Fault) (db : DB)
    (tgt uid : Nat) :
    countEmailLoop (svcSendExternal fault db tgt) uid = 0 := by
  simp only [svcSendExternal, countEmailLoop]
  cases findUser db tgt with
  | none => rfl
  | some u => split_ifs <;> simp [List.filter_append]

theorem countEmailLoop_pEventsNF_self (fault : Fault) (db : DB)
    (q : Participant) (uid : Nat) (hq : q.userId = some uid) (user : User)
    (hu : findUser db uid = some user) :
    countEmailLoop (participantEventsNF fault db q) uid =
      if emailAllowed (findSettings db uid) then 1 else 0 := by
  simp only [participantEventsNF, hq, hu]
  rw [countEmailLoop_append, countEmailLoop_append]
  have h1 : countEmailLoop (if inAppAllowed (findSettings db uid) then
      svcSendExternal fault db uid else []) uid = 0 := by
    split_ifs
    · exact countEmailLoop_svcSendExternal fault db uid uid
    · rfl
  rw [h1]
  simp only [loopEmailEvents, loopPushEvents]
  split_ifs <;> simp [countEmailLoop]

theorem countEmailLoop_pEventsNF_other (fault : Fault) (db : DB)
    (q : Participant) (uid : Nat) (hq : q.userId ≠ some uid) :
    countEmailLoop (participantEventsNF fault db q) uid = 0 := by
  cases hqu : q.userId with
  | none => simp [participantEventsNF, hqu, countEmailLoop]
  | some tgt =>
    have hne : tgt ≠ uid := fun hcontra => hq (by rw [hqu, hcontra])
    simp only [participantEventsNF, hqu]
    cases findUser db tgt with
    | none => rfl
    | some u =>
      rw [countEmailLoop_append, countEmailLoop_append]
      have h1 : countEmailLoop (if inAppAllowed (findSettings db tgt) then
          svcSendExternal fault db tgt else []) uid = 0 := by
        split_ifs
        · exact countEmailLoop_svcSendExternal fault db tgt uid
        · rfl
      rw [h1]
      simp only [loopEmailEvents, loopPushEvents]
      split_ifs <;> simp_all [countEmailLoop]

theorem countNotif_pNotifsNF_self (db : DB) (q : Participant) (uid : Nat)
    (hq : q.userId = some uid) (user : User)
    (hu : findUser db uid = some user) (mid : Nat) (title : String)
    (minutes : Nat) :
    countNotif (participantNotifsNF db q mid title minutes) uid =
      if inAppAllowed (findSettings db uid) then 1 else 0 := by
  simp only [participantNotifsNF, hq, hu]
  split_ifs <;> simp [countNotif, reminderNotifRow]

theorem countNotif_pNotifsNF_other (db : DB) (q : Participant) (uid : Nat)
    (hq : q.userId ≠ some uid) (mid : Nat) (title : String) (minutes : Nat) :
    countNotif (participantNotifsNF db q mid title minutes) uid = 0 := by
  cases hqu : q.userId with
  | none => simp [participantNotifsNF, hqu, countNotif]
  | some tgt =>
    have hne : tgt ≠ uid := fun hcontra => hq (by rw [hqu, hcontra])
    simp only [participantNotifsNF, hqu]
    cases findUser db tgt with
    | none => rfl
    | some u => split_ifs <;> simp [countNotif, reminderNotifRow, hne]

/-- **C9.**  For a user whose settings disable push, the push sender is
never invoked for that user during dispatch, whatever the fault oracle and
whatever the store; and the email and in-app channels still proceed per
their own flags: when one due reminder is dispatched to that user (linked
once, in-app writes fault-free), the dispatch loop's direct email call
happens exactly when the email flag is on, and an in-app Notification row is
added exactly when the in-app flag is on. -/
theorem claim9_push_disabled_user_never_pushed (fault : Fault) (db : DB)
    (now : Int) (uid : Nat) (sett : UserSettings)
    (hs : findSettings db uid = some sett)
    (hp : sett.pushNotificationsEnabled = false) :
    (∀ src, Event.pushCall src uid ∉ (processReminders fault db now).2) ∧
    (∀ r m user, selectReminders db now = [r] →
      findMeeting db r.meetingId = some m →
      (∀ u, fault.inAppThrows u = false) →
      findUser db uid = some user →
      (m.participants.filter (fun p => p.userId == some uid)).length = 1 →
      countEmailLoop (processReminders fault db now).2 uid =
        (if sett.emailNotificationsEnabled then 1 else 0) ∧
      countNotif (processReminders fault db now).1.notifications uid =
        countNotif db.notifications uid +
          (if sett.inAppNotificationsEnabled then 1 else 0)) := by
  constructor
  · intro src hmem
    have hguard := processReminders_pushGuard fault db now src uid hmem
    rw [hs] at hguard
    simp only [pushAllowed] at hguard
    rw [hp] at hguard
    cases hguard
  · intro r m user hsel hm hnf hu hone
    have hrun : processReminders fault db now =
        jobProcessReminder fault now (db, []) r := by
      show (selectReminders db now).foldl (jobProcessReminder fault now)
        (db, []) = _
      rw [hsel]
      rfl
    rw [hrun, jobProcessReminder_exact fault now (db, []) r m hm hnf]
    constructor
    · show countEmailLoop ((([] : List Event) ++ [Event.reminderStart r.id])
        ++ (m.participants.map (participantEventsNF fault db)).flatten)
        uid = _
      rw [countEmailLoop_append]
      rw [count_flatten_one uid (participantEventsNF fault db)
        (fun l => countEmailLoop l uid)
        (if emailAllowed (findSettings db uid) then 1 else 0)
        (fun l1 l2 => countEmailLoop_append l1 l2 uid) rfl
        (fun q hq => countEmailLoop_pEventsNF_self fault db q uid hq user hu)
        (fun q hq => countEmailLoop_pEventsNF_other fault db q uid hq)
        m.participants hone]
      rw [hs]
      simp [countEmailLoop, emailAllowed]
    · show countNotif (db.notifications ++
        (m.participants.map (fun p => participantNotifsNF db p m.id m.title
          r.minutesBefore)).flatten) uid = _
      rw [countNotif_append]
      rw [count_flatten_one uid
        (fun p => participantNotifsNF db p m.id m.title r.minutesBefore)
        (fun l => countNotif l uid)
        (if inAppAllowed (findSettings db uid) then 1 else 0)
        (fun l1 l2 => countNotif_append l1 l2 uid) rfl
        (fun q hq => countNotif_pNotifsNF_self db q uid hq user hu m.id
          m.title r.minutesBefore)
        (fun q hq => countNotif_pNotifsNF_other db q uid hq m.id m.title
          r.minutesBefore)
        m.participants hone]
      rw [hs]
      simp [inAppAllowed]

/-- Witness for C9 at a concrete store: user 2 of `exDBPushOff` has push
disabled; dispatching the due reminder never pushes to them, while their
direct email call and in-app notification still happen (their flags are
on). -/
theorem claim9_witness :
    Event.pushCall Src.loop 2 ∉
      (processReminders noFault exDBPushOff 100000).2 ∧
    countEmailLoop (processReminders noFault exDBPushOff 100000).2 2 =
      (if exSettingsPushOff.emailNotificationsEnabled then 1 else 0) ∧
    countNotif (processReminders noFault exDBPushOff 100000).1.notifications
        2 = countNotif exDBPushOff.notifications 2 +
          (if exSettingsPushOff.inAppNotificationsEnabled then 1 else 0) := by
  have hmain := claim9_push_disabled_user_never_pushed noFault exDBPushOff
    100000 2 exSettingsPushOff (by decide) (by decide)
  have hpos := hmain.2 exReminder exMeeting exUser2 (by decide) (by decide)
    (fun _ => rfl) (by decide) (by decide)
  exact ⟨hmain.1 Src.loop, hpos.1, hpos.2⟩

/-! ## C5: email failures are isolated -/

/-- Simulation through the throwing fold: related states stepped by related
step functions stay related, with matching throw behaviour. -/
theorem foldE_sim {α σ : Type} (R : σ → σ → Prop)
    (f g : σ → α → Except σ σ)
    (hstep : ∀ s1 s2 a, R s1 s2 → ExceptRel R (f s1 a) (g s2 a)) :
    ∀ (l : List α) (s1 s2 : σ), R s1 s2 →
      ExceptRel R (foldE f s1 l) (foldE g s2 l) := by
  intro l
  induction l with
  | nil => intro s1 s2 h; exact h
  | cons a l ih =>
    intro s1 s2 h
    have hstep' := hstep s1 s2 a h
    rw [foldE_cons, foldE_cons]
    cases h1 : f s1 a with
    | ok t1 =>
      cases h2 : g s2 a with
      | ok t2 =>
        rw [h1, h2] at hstep'
        exact ih t1 t2 hstep'
      | error t2 =>
        rw [h1, h2] at hstep'
        exact hstep'.elim
    | error t1 =>
      cases h2 : g s2 a with
      | ok t2 =>
        rw [h1, h2] at hstep'
        exact hstep'.elim
      | error t2 =>
        rw [h1, h2] at hstep'
        exact hstep'

/-- The non-error part of `sendExternalNotifications`' trace does not depend
on the email-fault oracle. -/
theorem svcSendExternal_emailFaultRel (f g : Fault)
    (hpu : f.pushThrows = g.pushThrows) (db : DB) (uid : Nat) :
    (svcSendExternal f db uid).filter isNotEmailError =
      (svcSendExternal g db uid).filter isNotEmailError := by
  simp only [svcSendExternal]
  cases findUser db uid with
  | none => rfl
  | some u =>
    rw [hpu]
    simp only [List.filter_append]
    congr 1
    split_ifs <;> simp [isNotEmailError]

theorem pEventsNF_emailFaultRel (f g : Fault)
    (hpu : f.pushThrows = g.pushThrows) (db : DB) (p : Participant) :
    (participantEventsNF f db p).filter isNotEmailError =
      (participantEventsNF g db p).filter isNotEmailError := by
  cases hp : p.userId with
  | none => simp [participantEventsNF, hp]
  | some uid =>
    cases hu : findUser db uid with
    | none => simp [participantEventsNF, hp, hu]
    | some user =>
      simp only [participantEventsNF, hp, hu, List.filter_append]
      congr 1
      · split_ifs
        · exact svcSendExternal_emailFaultRel f g hpu db uid
        · rfl
      · congr 1
        · simp only [loopEmailEvents]
          split_ifs <;> simp [isNotEmailError]
        · simp only [loopPushEvents, hpu]

/-- One participant iteration under two fault oracles differing only in the
email component: same store effect, same non-error trace, same throw
behaviour. -/
theorem jobPP_emailFaultRel (f g : Fault)
    (hi : f.inAppThrows = g.inAppThrows)
    (hpu : f.pushThrows = g.pushThrows) (m : Meeting) (r : Reminder) :
    ∀ (st1 st2 : St) (q : Participant), EmailFaultRel st1 st2 →
      ExceptRel EmailFaultRel (jobProcessParticipant f m r st1 q)
        (jobProcessParticipant g m r st2 q) := by
  intro st1 st2 q hrel
  obtain ⟨hdb, hlog⟩ := hrel
  cases hq : q.userId with
  | none =>
    rw [jobPP_none f m r st1 q hq, jobPP_none g m r st2 q hq]
    exact ⟨hdb, hlog⟩
  | some uid =>
    cases hu : findUser st1.1 uid with
    | none =>
      have hu2 : findUser st2.1 uid = none := by rw [← hdb]; exact hu
      rw [jobPP_noUser f m r st1 q uid hq hu,
        jobPP_noUser g m r st2 q uid hq hu2]
      exact ⟨hdb, hlog⟩
    | some user =>
      have hu2 : findUser st2.1 uid = some user := by rw [← hdb]; exact hu
      by_cases hin : inAppAllowed (findSettings st1.1 uid) = true
      · have hin2 : inAppAllowed (findSettings st2.1 uid) = true := by
          rw [← hdb]; exact hin
        by_cases hth : f.inAppThrows uid = true
        · have hth2 : g.inAppThrows uid = true := by rw [← hi]; exact hth
          rw [jobPP_throw f m r st1 q uid user hq hu hin hth,
            jobPP_throw g m r st2 q uid user hq hu2 hin2 hth2]
          exact ⟨hdb, hlog⟩
        · have hth' : f.inAppThrows uid = false := by simpa using hth
          have hth2 : g.inAppThrows uid = false := by rw [← hi]; exact hth'
          rw [jobPP_ok_inapp f m r st1 q uid user hq hu hin hth',
            jobPP_ok_inapp g m r st2 q uid user hq hu2 hin2 hth2]
          refine ⟨by rw [hdb], ?_⟩
          rw [List.filter_append, List.filter_append, hlog, hdb,
            pEventsNF_emailFaultRel f g hpu st2.1 q]
      · have hin2 : inAppAllowed (findSettings st2.1 uid) = false := by
          rw [← hdb]; simpa using hin
        rw [jobPP_ok_noinapp f m r st1 q uid user hq hu (by simpa using hin),
          jobPP_ok_noinapp g m r st2 q uid user hq hu2 hin2]
        refine ⟨hdb, ?_⟩
        rw [List.filter_append, List.filter_append, hlog, hdb,
          pEventsNF_emailFaultRel f g hpu st2.1 q]

/-- One per-reminder iteration under two fault oracles differing only in the
email component. -/
theorem jobPR_emailFaultRel (f g : Fault)
    (hi : f.inAppThrows = g.inAppThrows)
    (hpu : f.pushThrows = g.pushThrows) (now : Int) :
    ∀ (st1 st2 : St) (r : Reminder), EmailFaultRel st1 st2 →
      EmailFaultRel (jobProcessReminder f now st1 r)
        (jobProcessReminder g now st2 r) := by
  intro st1 st2 r hrel
  obtain ⟨hdb, hlog⟩ := hrel
  have hstartrel : EmailFaultRel (st1.1, st1.2 ++ [Event.reminderStart r.id])
      (st2.1, st2.2 ++ [Event.reminderStart r.id]) := by
    refine ⟨hdb, ?_⟩
    rw [List.filter_append, List.filter_append, hlog]
  cases hm : findMeeting st1.1 r.meetingId with
  | none =>
    have hm2 : findMeeting st2.1 r.meetingId = none := by
      rw [← hdb]; exact hm
    rw [jobPR_noMeeting f now st1 r hm, jobPR_noMeeting g now st2 r hm2]
    refine ⟨hdb, ?_⟩
    simp only [List.filter_append, hlog]
  | some m =>
    have hm2 : findMeeting st2.1 r.meetingId = some m := by
      rw [← hdb]; exact hm
    have hsim := foldE_sim EmailFaultRel (jobProcessParticipant f m r)
      (jobProcessParticipant g m r) (jobPP_emailFaultRel f g hi hpu m r)
      m.participants (st1.1, st1.2 ++ [Event.reminderStart r.id])
      (st2.1, st2.2 ++ [Event.reminderStart r.id]) hstartrel
    cases hf1 : foldE (jobProcessParticipant f m r)
        (st1.1, st1.2 ++ [Event.reminderStart r.id]) m.participants with
    | ok q1 =>
      cases hf2 : foldE (jobProcessParticipant g m r)
          (st2.1, st2.2 ++ [Event.reminderStart r.id]) m.participants with
      | ok q2 =>
        rw [hf1, hf2] at hsim
        obtain ⟨db1', log1'⟩ := q1
        obtain ⟨db2', log2'⟩ := q2
        rw [jobPR_ok f now st1 r m db1' log1' hm hf1,
          jobPR_ok g now st2 r m db2' log2' hm2 hf2]
        have hd : db1' = db2' := hsim.1
        exact ⟨by rw [show (db1' : DB) = db2' from hd], hsim.2⟩
      | error q2 =>
        rw [hf1, hf2] at hsim
        exact hsim.elim
    | error q1 =>
      cases hf2 : foldE (jobProcessParticipant g m r)
          (st2.1, st2.2 ++ [Event.reminderStart r.id]) m.participants with
      | ok q2 =>
        rw [hf1, hf2] at hsim
        exact hsim.elim
      | error q2 =>
        rw [hf1, hf2] at hsim
        obtain ⟨db1', log1'⟩ := q1
        obtain ⟨db2', log2'⟩ := q2
        rw [jobPR_error f now st1 r m db1' log1' hm hf1,
          jobPR_error g now st2 r m db2' log2' hm2 hf2]
        have hd : db1' = db2' := hsim.1
        refine ⟨hd, ?_⟩
        have hl : log1'.filter isNotEmailError = log2'.filter isNotEmailError :=
          hsim.2
        simp only [List.filter_append, hl]

/-- **C5.**  A thrown email-sender failure is caught and isolated: two runs
of the dispatch tick whose fault oracles agree on in-app and push faults but
differ arbitrarily in email faults produce the same final store (same
notifications, same reminder markings — the reminder is still marked fully
sent) and the same trace up to caught-email-error log entries (every push
call, every service email call and every other participant's processing are
unaffected). -/
theorem claim5_email_failure_does_not_abort (f g : Fault) (db : DB)
    (now : Int) (hi : f.inAppThrows = g.inAppThrows)
    (hpu : f.pushThrows = g.pushThrows) :
    (processReminders f db now).1 = (processReminders g db now).1 ∧
    (processReminders f db now).2.filter isNotEmailError =
      (processReminders g db now).2.filter isNotEmailError := by
  have hgen : ∀ (batch : List Reminder) (st1 st2 : St), EmailFaultRel st1 st2 →
      EmailFaultRel (batch.foldl (jobProcessReminder f now) st1)
        (batch.foldl (jobProcessReminder g now) st2) := by
    intro batch
    induction batch with
    | nil => intro st1 st2 h; exact h
    | cons r rest ih =>
      intro st1 st2 h
      simp only [List.foldl_cons]
      exact ih _ _ (jobPR_emailFaultRel f g hi hpu now st1 st2 r h)
  have h0 : EmailFaultRel (db, ([] : List Event)) (db, []) := ⟨rfl, rfl⟩
  exact hgen (selectReminders db now) (db, []) (db, []) h0

/-- Witness for C5 at a concrete store: the run where every email send
throws ends with the same store as the fault-free run. -/
theorem claim5_witness :
    (processReminders emailFault exDB 100000).1 =
      (processReminders noFault exDB 100000).1 ∧
    (processReminders emailFault exDB 100000).2.filter isNotEmailError =
      (processReminders noFault exDB 100000).2.filter isNotEmailError :=
  claim5_email_failure_does_not_abort emailFault noFault exDB 100000 rfl rfl

/-! ## C10: participants without a linked account -/

/-- A dispatch tick never writes the meetings table (participant rows live
under meetings). -/
theorem processReminders_meetings (fault : Fault) (db : DB) (now : Int) :
    (processReminders fault db now).1.meetings = db.meetings := by
  have hgen : ∀ (batch : List Reminder) (st : St),
      (batch.foldl (jobProcessReminder fault now) st).1.meetings =
        st.1.meetings := by
    intro batch
    induction batch with
    | nil => intro st; rfl
    | cons r rest ih =>
      intro st
      rw [List.foldl_cons, ih]
      exact (jobProcessReminder_core fault now st r).1.2.1
  exact hgen (selectReminders db now) (db, [])

/-- **C10.**  A participant with no linked user account is silently
skipped: their loop iteration returns the state unchanged (no Notification
row written, no channel call, no trace event — the fault-free closed forms
of their contribution are both empty), and the whole tick leaves the
meetings table, hence every Participant row, unchanged. -/
theorem claim10_accountless_participant_skipped (fault : Fault) (db : DB)
    (now : Int) (m : Meeting) (r : Reminder) (st : St) (p : Participant)
    (hp : p.userId = none) :
    jobProcessParticipant fault m r st p = Except.ok st ∧
    participantEventsNF fault db p = [] ∧
    participantNotifsNF db p m.id m.title r.minutesBefore = [] ∧
    (processReminders fault db now).1.meetings = db.meetings := by
  refine ⟨jobPP_none fault m r st p hp, ?_, ?_,
    processReminders_meetings fault db now⟩
  · simp [participantEventsNF, hp]
  · simp [participantNotifsNF, hp]

/-- Witness for C10 at a concrete store: the account-less participant
`c@x` of `exMeeting` is skipped and the meeting (with its participant rows)
survives the tick unchanged. -/
theorem claim10_witness :
    jobProcessParticipant noFault exMeeting exReminder (exDB, [])
        { email := "c@x", userId := none } = Except.ok (exDB, []) ∧
    participantEventsNF noFault exDB { email := "c@x", userId := none } = [] ∧
    participantNotifsNF exDB { email := "c@x", userId := none } exMeeting.id
      exMeeting.title exReminder.minutesBefore = [] ∧
    (processReminders noFault exDB 100000).1.meetings = exDB.meetings :=
  claim10_accountless_participant_skipped noFault exDB 100000 exMeeting
    exReminder (exDB, []) { email := "c@x", userId := none } rfl

end MeetingApp
